import Mathlib

/-!
# DataScript — verification of spec claims against the sources

Shallow embedding of the DataScript interpreter sources (lexer, evaluator,
environment, schema method binding, Mongo DSL lowering, module loader,
runtime clone helpers) together with theorems settling the spec claims.

Conventions:
* JavaScript insertion-ordered objects/maps are modelled as association
  lists; `setKey` keeps the position of an existing key and appends new keys,
  mirroring JS property assignment.
* Thrown JS values are modelled with an explicit signal/error sum; `Deno.exit`
  paths are a separate `fatal` constructor that no construct catches.
* Potentially non-terminating recursion (loops, module evaluation, cyclic
  clones) is fuel-indexed: `none` means the fuel ran out.
-/

namespace DataScript

/-! ## Plain documents (the `Record<string, unknown>` shapes built by the DSL)

`runtimeToPlain` (runtime/mongo.ts) produces null / number / boolean /
string / array / plain-object data; `Plain` is that shape.  Numbers are
modelled as integers: the claims under study only involve integer literals
and no arithmetic on document values. -/

inductive Plain where
  | pnull
  | pnum (n : Int)
  | pbool (b : Bool)
  | pstr (s : String)
  | parr (xs : List Plain)
  | pobj (fields : List (String × Plain))
deriving Repr

/-- JS property write on an insertion-ordered object: an existing key keeps
its position, a new key is appended. -/
def setKey (query : List (String × Plain)) (k : String) (v : Plain) :
    List (String × Plain) :=
  match query with
  | [] => [(k, v)]
  | (k', v') :: rest =>
    if k' = k then (k', v) :: rest else (k', v') :: setKey rest k v

/-- JS property read (`query[key]`); `none` models `undefined`. -/
def getKey (query : List (String × Plain)) (k : String) : Option Plain :=
  match query with
  | [] => none
  | (k', v') :: rest => if k' = k then some v' else getKey rest k

/-- The closed operator set of `MongoQueryCondition` (frontend/ast.ts permits
only `==, !=, <, <=, >, >=`; the parser enforces this). -/
inductive QOp where
  | qeq | qne | qlt | qle | qgt | qge
deriving DecidableEq, Repr

/-- `mapComparisonOperator` (eval/expressions.ts): comparison operator to
Mongo operator name.  The source throws on `==`; `applyQueryCondition` never
passes `==` here, and the value returned for `qeq` is irrelevant. -/
def mapComparisonOperator : QOp → String
  | .qne => "$ne"
  | .qlt => "$lt"
  | .qle => "$lte"
  | .qgt => "$gt"
  | .qge => "$gte"
  | .qeq => "$eq"

/-- `setEqualityCondition` (eval/expressions.ts lines 273–293): if the slot
holds a non-null, non-array object, store the value under `$eq` inside it;
otherwise (absent, scalar, null, or array) overwrite the slot with the bare
value. -/
def setEqualityCondition (query : List (String × Plain)) (key : String)
    (value : Plain) : List (String × Plain) :=
  match getKey query key with
  | some (.pobj es) => setKey query key (.pobj (setKey es "$eq" value))
  | _ => setKey query key value

/-- `applyQueryCondition` (eval/expressions.ts lines 246–271): `==` goes to
`setEqualityCondition`; any other operator merges into an existing compound
comparator object, or replaces the slot with a fresh one-entry comparator
object. -/
def applyQueryCondition (query : List (String × Plain)) (key : String)
    (op : QOp) (value : Plain) : List (String × Plain) :=
  match op with
  | .qeq => setEqualityCondition query key value
  | _ =>
    let mop := mapComparisonOperator op
    match getKey query key with
    | some (.pobj es) => setKey query key (.pobj (setKey es mop value))
    | _ => setKey query key (.pobj [(mop, value)])

/-- One parsed `query { field op value }` condition with its value already
converted to a plain document (`runtimeToPlain`). -/
structure QueryCond where
  field : String
  op : QOp
  value : Plain

/-- `eval_mongo_query_expr` (eval/expressions.ts lines 231–244): fold the
conditions over an initially empty document. -/
def lowerQuery (conds : List QueryCond) : List (String × Plain) :=
  conds.foldl (fun q c => applyQueryCondition q c.field c.op c.value) []

example :
    lowerQuery [⟨"a", .qeq, .pnum 1⟩, ⟨"a", .qgt, .pnum 0⟩]
      = [("a", Plain.pobj [("$gt", Plain.pnum 0)])] := by
  rfl

example :
    lowerQuery [⟨"a", .qgt, .pnum 0⟩, ⟨"a", .qeq, .pnum 1⟩]
      = [("a", Plain.pobj [("$gt", Plain.pnum 0), ("$eq", Plain.pnum 1)])] := by
  rfl

/-! ## Reference-identity values and `cloneRuntime` (runtime/functions.ts)

Objects and arrays have reference identity (they live in a heap and values
point at them with `href`); primitives are immediate.  `cloneRuntime`
receives a value, a `deep` flag and the identity-keyed `visited` map
(object address → copy address).  The embedding mirrors the source's order
of operations exactly: an **object** copy is registered in `visited`
*before* its properties are cloned (functions.ts line 115), while an
**array** copy is registered only *after* its elements are cloned
(functions.ts lines 126–130). -/

inductive HVal where
  | hnull
  | hnum (n : Int)
  | hbool (b : Bool)
  | hstr (s : String)
  | href (a : Nat)
deriving DecidableEq, Repr

inductive HObj where
  | hobj (schemaName : Option String) (props : List (String × HVal))
  | harr (elems : List HVal)
deriving DecidableEq, Repr

/-- The heap: address `a` is the `a`-th cell; allocation appends. -/
abbrev Heap := List HObj

/-- `visited.get(a)` on the identity-keyed map. -/
def lookupVisited (visited : List (Nat × Nat)) (a : Nat) : Option Nat :=
  match visited with
  | [] => none
  | (a', b) :: rest => if a' = a then some b else lookupVisited rest a

/-- `copy.properties.set(key, clonedChild)` on the object heap cell `b`
(the copies are freshly allocated with no duplicate keys, so appending
mirrors `Map.set`). -/
def pushProp (heap : Heap) (b : Nat) (k : String) (v : HVal) : Heap :=
  match heap[b]? with
  | some (.hobj sn props) => heap.set b (.hobj sn (props ++ [(k, v)]))
  | _ => heap

mutual

/-- `cloneRuntime(value, deep, visited)` (runtime/functions.ts lines 98–136),
fuel-indexed; `none` means the recursion did not finish within the fuel. -/
def cloneRuntime : Nat → Heap → List (Nat × Nat) → Bool → HVal →
    Option (Heap × List (Nat × Nat) × HVal)
  | 0, _, _, _, _ => none
  | fuel + 1, heap, visited, deep, v =>
    match v with
    | .href a =>
      match lookupVisited visited a with
      | some b => some (heap, visited, .href b)
      | none =>
        match heap[a]? with
        | some (.hobj sn props) =>
          -- object case: allocate the copy and register it in `visited`
          -- *before* cloning the properties (source line 115).
          let b := heap.length
          let heap1 := heap ++ [.hobj sn []]
          let visited1 := (a, b) :: visited
          match cloneProps fuel heap1 visited1 deep b props with
          | none => none
          | some (heap2, visited2) => some (heap2, visited2, .href b)
        | some (.harr elems) =>
          -- array case: clone the elements first, allocate the copy, and
          -- only then register it in `visited` (source lines 126–130).
          match cloneElems fuel heap visited deep elems with
          | none => none
          | some (heap1, visited1, cloned) =>
            let b := heap1.length
            some (heap1 ++ [.harr cloned], (a, b) :: visited1, .href b)
        | none => some (heap, visited, v)
    | _ => some (heap, visited, v)
termination_by structural fuel => fuel

/-- The `for (const [key, child] of original.properties.entries())` loop of
the object case, writing each (possibly cloned) child into the copy `b`. -/
def cloneProps : Nat → Heap → List (Nat × Nat) → Bool → Nat →
    List (String × HVal) → Option (Heap × List (Nat × Nat))
  | 0, _, _, _, _, _ => none
  | _ + 1, heap, visited, _, _, [] => some (heap, visited)
  | fuel + 1, heap, visited, deep, b, (k, child) :: rest =>
    if deep then
      match cloneRuntime fuel heap visited true child with
      | none => none
      | some (heap1, visited1, cloned) =>
        cloneProps fuel (pushProp heap1 b k cloned) visited1 deep b rest
    else
      cloneProps fuel (pushProp heap b k child) visited deep b rest
termination_by structural fuel => fuel

/-- The `original.elements.map(...)` of the array case (`slice()` when
shallow). -/
def cloneElems : Nat → Heap → List (Nat × Nat) → Bool → List HVal →
    Option (Heap × List (Nat × Nat) × List HVal)
  | 0, _, _, _, _ => none
  | _ + 1, heap, visited, _, [] => some (heap, visited, [])
  | fuel + 1, heap, visited, deep, child :: rest =>
    if deep then
      match cloneRuntime fuel heap visited true child with
      | none => none
      | some (heap1, visited1, cloned) =>
        match cloneElems fuel heap1 visited1 deep rest with
        | none => none
        | some (heap2, visited2, clonedRest) =>
          some (heap2, visited2, cloned :: clonedRest)
    else
      match cloneElems fuel heap visited deep rest with
      | none => none
      | some (heap1, visited1, clonedRest) =>
        some (heap1, visited1, child :: clonedRest)
termination_by structural fuel => fuel

end

/-- `deepClone(x)` (runtime/functions.ts lines 770–776): `cloneRuntime` with
`deep = true` and a fresh `visited` map. -/
def nativeDeepClone (fuel : Nat) (heap : Heap) (v : HVal) :
    Option (Heap × List (Nat × Nat) × HVal) :=
  cloneRuntime fuel heap [] true v

/-- A heap whose only cell is an array containing itself: the minimal cyclic
value. -/
def selfArrayHeap : Heap := [.harr [.href 0]]

theorem selfArray_clone_none :
    ∀ fuel, cloneRuntime fuel selfArrayHeap [] true (.href 0) = none := by
  intro fuel
  induction fuel using Nat.strong_induction_on with
  | _ fuel ih =>
    match fuel with
    | 0 => rfl
    | 1 => rfl
    | f + 2 =>
      have h := ih f (by omega)
      simp only [selfArrayHeap] at h
      simp [cloneRuntime, cloneElems, lookupVisited, selfArrayHeap, h]

/-! ## Lexer (frontend/lexer.ts)

`tokenize` is translated with the source's if-chain order preserved: the
single-character `.` branch precedes the final multicharacter-token branch,
and inside the numeric scanner a `.` not followed by a digit breaks out of
the number (source comment: "treat stray dot as member access"). -/

inductive TokenType where
  | number | identifier | str
  | kwLet | kwConst | kwDeclare | kwFunc | kwClass | kwCreate | kwRequired
  | kwOptional | kwSchema | kwExtends | kwIf | kwElse | kwWhile | kwTrue
  | kwFalse | kwNull | kwReturn | kwBreak | kwContinue | kwTry | kwCatch
  | kwThrow | kwImport | kwExposing | kwDefault | kwExport | kwAs | kwUpdate
  | kwUse | kwUsing | kwFrom | kwWith | kwWhere | kwSet | kwMongo | kwMany
  | kwQuery | kwDatabase | kwCollection | kwAwait
  | equals | semicolon | comma | colon | dot
  | openParen | closeParen | openBracket | closeBracket | openBrace
  | closeBrace | binaryOperator | eof
deriving DecidableEq, Repr

structure Token where
  value : String
  type : TokenType
deriving DecidableEq, Repr

/-- `KEYWORDS` (lexer.ts lines 385–426). -/
def KEYWORDS : String → Option TokenType := fun s =>
  match s with
  | "let" => some .kwLet
  | "const" => some .kwConst
  | "declare" => some .kwDeclare
  | "func" => some .kwFunc
  | "class" => some .kwClass
  | "create" => some .kwCreate
  | "required" => some .kwRequired
  | "optional" => some .kwOptional
  | "schema" => some .kwSchema
  | "extends" => some .kwExtends
  | "if" => some .kwIf
  | "else" => some .kwElse
  | "while" => some .kwWhile
  | "true" => some .kwTrue
  | "false" => some .kwFalse
  | "null" => some .kwNull
  | "return" => some .kwReturn
  | "break" => some .kwBreak
  | "continue" => some .kwContinue
  | "try" => some .kwTry
  | "catch" => some .kwCatch
  | "throw" => some .kwThrow
  | "import" => some .kwImport
  | "exposing" => some .kwExposing
  | "default" => some .kwDefault
  | "export" => some .kwExport
  | "as" => some .kwAs
  | "update" => some .kwUpdate
  | "use" => some .kwUse
  | "using" => some .kwUsing
  | "from" => some .kwFrom
  | "with" => some .kwWith
  | "where" => some .kwWhere
  | "set" => some .kwSet
  | "mongo" => some .kwMongo
  | "many" => some .kwMany
  | "query" => some .kwQuery
  | "database" => some .kwDatabase
  | "collection" => some .kwCollection
  | "await" => some .kwAwait
  | _ => none

/-- `isInt` (lexer.ts): char code between those of `0` and `9`. -/
def isInt (c : Char) : Bool :=
  '0'.toNat ≤ c.toNat && c.toNat ≤ '9'.toNat

/-- `isalpha` (lexer.ts): `toUpperCase() != toLowerCase()` (ASCII letters). -/
def isalpha (c : Char) : Bool := c.toUpper ≠ c.toLower

def isIdentifierStart (c : Char) : Bool := isalpha c || c = '_'

def isIdentifierPart (c : Char) : Bool := isIdentifierStart c || isInt c

/-- `isSkippable` (lexer.ts): the `\s`-matched ASCII whitespace characters. -/
def isSkippable (c : Char) : Bool :=
  c = ' ' || c = '\t' || c = '\n' || c = '\r' ||
    c = Char.ofNat 11 || c = Char.ofNat 12

/-- The line-comment skip loop: consume up to and including the first
newline (or the end of input). -/
def skipComment : List Char → List Char
  | [] => []
  | c :: rest => if c = '\n' ∨ c = '\r' then rest else skipComment rest

/-- The numeric-literal scan loop (lexer.ts lines 581–603): digits are
consumed; a first `.` is consumed only when a digit follows, otherwise the
loop breaks leaving the dot in the source. -/
def scanNumber : List Char → Bool → List Char → List Char × List Char
  | [], _, num => (num, [])
  | c :: rest, hasDec, num =>
    if isInt c then scanNumber rest hasDec (num ++ [c])
    else if c = '.' ∧ hasDec = false then
      match rest with
      | r :: _ =>
        if isInt r then scanNumber rest true (num ++ ['.'])
        else (num, c :: rest)
      | [] => (num, c :: rest)
    else (num, c :: rest)

/-- The post-loop handling of a scanned numeric literal (lexer.ts lines
605–616): normalize a leading `.`, reject a trailing `.`. -/
def numberToken (num : List Char) : Except String Token :=
  let num := if num.head? = some '.' then '0' :: num else num
  if num.getLast? = some '.' then
    .error "Invalid numeric literal: missing digits after decimal point."
  else
    .ok ⟨String.mk num, .number⟩

/-- The identifier scan loop plus keyword lookup (lexer.ts lines 617–628). -/
def scanIdent : List Char → List Char → List Char × List Char
  | [], acc => (acc, [])
  | c :: rest, acc =>
    if isIdentifierPart c then scanIdent rest (acc ++ [c])
    else (acc, c :: rest)

def identToken (ident : List Char) : Token :=
  let s := String.mk ident
  match KEYWORDS s with
  | some t => ⟨s, t⟩
  | none => ⟨s, .identifier⟩

/-- The string-literal scan loop (lexer.ts lines 543–577); `none` models the
unterminated-string fatal. -/
def scanString : List Char → List Char → Option (String × List Char)
  | [], _ => none
  | '"' :: rest, acc => some (String.mk acc, rest)
  | '\\' :: next :: rest, acc =>
    let e :=
      if next = '"' then '"'
      else if next = '\\' then '\\'
      else if next = 'n' then '\n'
      else if next = 't' then '\t'
      else next
    scanString rest (acc ++ [e])
  | c :: rest, acc => scanString rest (acc ++ [c])

/-- The main `tokenize` loop (lexer.ts lines 465–640), fuel-indexed on the
iteration count (each iteration consumes at least one character).  The
result is `Except`: `.error` models the `console.error` + `Deno.exit(1)`
fatal paths. -/
def tokenizeLoop : Nat → List Char → List Token → Option (Except String (List Token))
  | 0, _, _ => none
  | fuel + 1, src, tokens =>
    match src with
    | [] => some (.ok (tokens ++ [⟨"EndOfFile", .eof⟩]))
    | c :: rest =>
      if c = '/' ∧ rest.head? = some '/' then
        tokenizeLoop fuel (skipComment rest.tail) tokens
      else if c = '(' then tokenizeLoop fuel rest (tokens ++ [⟨"(", .openParen⟩])
      else if c = ')' then tokenizeLoop fuel rest (tokens ++ [⟨")", .closeParen⟩])
      else if c = '{' then tokenizeLoop fuel rest (tokens ++ [⟨"\x7b", .openBracket⟩])
      else if c = '}' then tokenizeLoop fuel rest (tokens ++ [⟨"\x7d", .closeBracket⟩])
      else if c = '[' then tokenizeLoop fuel rest (tokens ++ [⟨"[", .openBrace⟩])
      else if c = ']' then tokenizeLoop fuel rest (tokens ++ [⟨"]", .closeBrace⟩])
      else if c = '=' ∧ rest.head? = some '=' then
        tokenizeLoop fuel rest.tail (tokens ++ [⟨"==", .binaryOperator⟩])
      else if c = '!' ∧ rest.head? = some '=' then
        tokenizeLoop fuel rest.tail (tokens ++ [⟨"!=", .binaryOperator⟩])
      else if c = '!' ∧ rest.head? = some '!' then
        tokenizeLoop fuel rest.tail (tokens ++ [⟨"!!", .binaryOperator⟩])
      else if c = '<' ∧ rest.head? = some '=' then
        tokenizeLoop fuel rest.tail (tokens ++ [⟨"<=", .binaryOperator⟩])
      else if c = '>' ∧ rest.head? = some '=' then
        tokenizeLoop fuel rest.tail (tokens ++ [⟨">=", .binaryOperator⟩])
      else if c = '<' ∧ rest.head? = some '-' then
        tokenizeLoop fuel rest.tail (tokens ++ [⟨"<-", .binaryOperator⟩])
      else if c = '&' ∧ rest.head? = some '&' then
        tokenizeLoop fuel rest.tail (tokens ++ [⟨"&&", .binaryOperator⟩])
      else if c = '|' ∧ rest.head? = some '|' then
        tokenizeLoop fuel rest.tail (tokens ++ [⟨"||", .binaryOperator⟩])
      else if c = '|' ∧ rest.head? = some '>' then
        tokenizeLoop fuel rest.tail (tokens ++ [⟨"|>", .binaryOperator⟩])
      else if c = '?' ∧ rest.head? = some '?' then
        tokenizeLoop fuel rest.tail (tokens ++ [⟨"??", .binaryOperator⟩])
      else if c = '+' ∨ c = '-' ∨ c = '*' ∨ c = '/' ∨ c = '%' ∨ c = '<' ∨
          c = '>' ∨ c = '!' ∨ c = '?' then
        tokenizeLoop fuel rest (tokens ++ [⟨String.mk [c], .binaryOperator⟩])
      else if c = '=' then tokenizeLoop fuel rest (tokens ++ [⟨"=", .equals⟩])
      else if c = ';' then tokenizeLoop fuel rest (tokens ++ [⟨";", .semicolon⟩])
      else if c = ',' then tokenizeLoop fuel rest (tokens ++ [⟨",", .comma⟩])
      else if c = '.' then tokenizeLoop fuel rest (tokens ++ [⟨".", .dot⟩])
      else if c = ':' then tokenizeLoop fuel rest (tokens ++ [⟨":", .colon⟩])
      else if c = '"' then
        match scanString rest [] with
        | none => some (.error "Unterminated string literal. Add a closing quote.")
        | some (value, rest') =>
          tokenizeLoop fuel rest' (tokens ++ [⟨value, .str⟩])
      else if isInt c ∨ (c = '.' ∧ (rest.head?.map isInt).getD false = true) then
        match scanNumber (c :: rest) false [] with
        | (num, rest') =>
          match numberToken num with
          | .error msg => some (.error msg)
          | .ok tok => tokenizeLoop fuel rest' (tokens ++ [tok])
      else if isIdentifierStart c then
        match scanIdent (c :: rest) [] with
        | (ident, rest') => tokenizeLoop fuel rest' (tokens ++ [identToken ident])
      else if isSkippable c then tokenizeLoop fuel rest tokens
      else
        some (.error ("Unrecognized character '" ++ String.mk [c] ++
          "' encountered by lexer. Add support for this character or remove it from the source."))

/-- `tokenize(sourceCode)`: run the loop with enough fuel (each iteration
consumes at least one character, so `length + 1` iterations always
suffice). -/
def tokenize (source : String) : Option (Except String (List Token)) :=
  tokenizeLoop (source.length + 1) source.toList []

example :
    tokenize "1." = some (.ok [⟨"1", .number⟩, ⟨".", .dot⟩, ⟨"EndOfFile", .eof⟩]) := by
  rfl

example :
    tokenize "1.5;" = some (.ok [⟨"1.5", .number⟩, ⟨";", .semicolon⟩,
      ⟨"EndOfFile", .eof⟩]) := by
  rfl

theorem isInt_ne {c : Char} (h : isInt c = true) (d : Char)
    (hd : d.toNat < 48 ∨ 57 < d.toNat) : c ≠ d := by
  intro heq
  subst heq
  simp [isInt] at h
  omega

theorem scanNumber_digits (ds : List Char) (h : ∀ c ∈ ds, isInt c = true)
    (num : List Char) :
    scanNumber (ds ++ ['.']) false num = (num ++ ds, ['.']) := by
  induction ds generalizing num with
  | nil => simp [scanNumber, isInt]
  | cons d ds ih =>
    have hd : isInt d = true := h d (by simp)
    have hrest : ∀ c ∈ ds, isInt c = true := fun c hc => h c (by simp [hc])
    simp [scanNumber, hd, ih hrest]

theorem getLast?_digits (l : List Char) (h : ∀ c ∈ l, isInt c = true)
    (hne : l ≠ []) : l.getLast? ≠ some '.' := by
  induction l with
  | nil => simp at hne
  | cons c rest ih =>
    cases rest with
    | nil =>
      have := isInt_ne (h c (by simp)) '.' (by decide)
      simpa using this
    | cons d rest' =>
      rw [List.getLast?_cons_cons]
      exact ih (fun x hx => h x (by simp [hx])) (by simp)

theorem tokenizeLoop_digit (fuel : Nat) (c : Char) (rest : List Char)
    (tokens : List Token) (hc : isInt c = true) :
    tokenizeLoop (fuel + 1) (c :: rest) tokens =
      match scanNumber (c :: rest) false [] with
      | (num, rest') =>
        match numberToken num with
        | .error msg => some (.error msg)
        | .ok tok => tokenizeLoop fuel rest' (tokens ++ [tok]) := by
  have h01 := isInt_ne hc '/' (by decide)
  have h02 := isInt_ne hc '(' (by decide)
  have h03 := isInt_ne hc ')' (by decide)
  have h04 := isInt_ne hc '{' (by decide)
  have h05 := isInt_ne hc '}' (by decide)
  have h06 := isInt_ne hc '[' (by decide)
  have h07 := isInt_ne hc ']' (by decide)
  have h08 := isInt_ne hc '=' (by decide)
  have h09 := isInt_ne hc '!' (by decide)
  have h10 := isInt_ne hc '<' (by decide)
  have h11 := isInt_ne hc '>' (by decide)
  have h12 := isInt_ne hc '&' (by decide)
  have h13 := isInt_ne hc '|' (by decide)
  have h14 := isInt_ne hc '?' (by decide)
  have h15 := isInt_ne hc '+' (by decide)
  have h16 := isInt_ne hc '-' (by decide)
  have h17 := isInt_ne hc '*' (by decide)
  have h18 := isInt_ne hc '%' (by decide)
  have h19 := isInt_ne hc ';' (by decide)
  have h20 := isInt_ne hc ',' (by decide)
  have h21 := isInt_ne hc '.' (by decide)
  have h22 := isInt_ne hc ':' (by decide)
  have h23 := isInt_ne hc '"' (by decide)
  simp [tokenizeLoop, hc, h01, h02, h03, h04, h05, h06, h07, h08, h09, h10,
    h11, h12, h13, h14, h15, h16, h17, h18, h19, h20, h21, h22, h23]

theorem tokenizeLoop_dot (fuel : Nat) (tokens : List Token) :
    tokenizeLoop (fuel + 1) ['.'] tokens =
      tokenizeLoop fuel [] (tokens ++ [⟨".", .dot⟩]) := by
  simp [tokenizeLoop]

theorem tokenizeLoop_nil (fuel : Nat) (tokens : List Token) :
    tokenizeLoop (fuel + 1) [] tokens =
      some (.ok (tokens ++ [⟨"EndOfFile", .eof⟩])) := by
  simp [tokenizeLoop]

theorem tokenize_digits_trailing_dot (ds : List Char) (hne : ds ≠ [])
    (h : ∀ c ∈ ds, isInt c = true) :
    tokenize (String.mk (ds ++ ['.'])) =
      some (.ok [⟨String.mk ds, .number⟩, ⟨".", .dot⟩, ⟨"EndOfFile", .eof⟩]) := by
  cases ds with
  | nil => exact absurd rfl hne
  | cons d ds' =>
    have hd : isInt d = true := h d (by simp)
    have hlen : (String.mk ((d :: ds') ++ ['.'])).length = ds'.length + 2 := by
      simp [String.length]
    show tokenizeLoop ((String.mk ((d :: ds') ++ ['.'])).length + 1)
      ((d :: ds') ++ ['.']) [] = _
    rw [hlen]
    rw [show ds'.length + 2 + 1 = (ds'.length + 1 + 1) + 1 from rfl]
    rw [List.cons_append, tokenizeLoop_digit _ d _ [] hd]
    rw [← List.cons_append, scanNumber_digits (d :: ds') h []]
    have hhead : ¬ ((d :: ds').head? = some '.') := by
      have := isInt_ne hd '.' (by decide)
      simpa using this
    have hlast : ¬ ((d :: ds').getLast? = some '.') :=
      getLast?_digits (d :: ds') h (by simp)
    simp only [numberToken, List.nil_append, hhead, if_false, hlast,
      if_neg hhead, if_neg hlast]
    rw [tokenizeLoop_dot, tokenizeLoop_nil]
    simp

/-- The numeric scan stops at a `.` whose successor is not a digit, for any
continuation of the source. -/
theorem scanNumber_digits_any (ds : List Char) (h : ∀ c ∈ ds, isInt c = true)
    (rest : List Char) (hrest : (rest.head?.map isInt).getD false = false)
    (num : List Char) :
    scanNumber (ds ++ '.' :: rest) false num = (num ++ ds, '.' :: rest) := by
  induction ds generalizing num with
  | nil =>
    have hdotInt : isInt '.' = false := by decide
    cases rest with
    | nil => simp [scanNumber, hdotInt]
    | cons r rest' =>
      simp only [Option.map, Option.getD, List.head?] at hrest
      simp [scanNumber, hdotInt, hrest]
  | cons d ds' ih =>
    have hd : isInt d = true := h d (by simp)
    have htail : ∀ c ∈ ds', isInt c = true := fun c hc => h c (by simp [hc])
    simp [scanNumber, hd, ih htail]

/-- The dot branch of the lexer loop, for any continuation. -/
theorem tokenizeLoop_dot_cons (fuel : Nat) (rest : List Char)
    (tokens : List Token) :
    tokenizeLoop (fuel + 1) ('.' :: rest) tokens =
      tokenizeLoop fuel rest (tokens ++ [⟨".", .dot⟩]) := by
  simp [tokenizeLoop]

/-- Invariant of the numeric scan loop: the output either is the
accumulator unchanged, or ends in a digit; and it surely ends in a digit
when the remaining input starts with one.  (A consumed `.` is always
followed by a consumed digit.) -/
theorem scanNumber_last (l : List Char) :
    ∀ (hasDec : Bool) (acc : List Char),
      ((scanNumber l hasDec acc).1 = acc ∨
        ∃ d, isInt d = true ∧ (scanNumber l hasDec acc).1.getLast? = some d) ∧
      (∀ r, l.head? = some r → isInt r = true →
        ∃ d, isInt d = true ∧ (scanNumber l hasDec acc).1.getLast? = some d) := by
  induction l with
  | nil =>
    intro hasDec acc
    exact ⟨Or.inl rfl, fun r hr _ => absurd hr (by simp)⟩
  | cons c rest ih =>
    intro hasDec acc
    constructor
    · by_cases hc : isInt c
      · simp only [scanNumber, hc, if_true]
        rcases (ih hasDec (acc ++ [c])).1 with he | ⟨d, hd, hlast⟩
        · exact Or.inr ⟨c, hc, by rw [he]; exact List.getLast?_concat _⟩
        · exact Or.inr ⟨d, hd, hlast⟩
      · by_cases hdot : c = '.' ∧ hasDec = false
        · obtain ⟨hceq, hdec⟩ := hdot
          subst hceq
          subst hdec
          cases rest with
          | nil =>
            left
            simp [scanNumber, hc]
          | cons r rest' =>
            by_cases hr : isInt r
            · right
              have hstep : scanNumber ('.' :: r :: rest') false acc
                  = scanNumber (r :: rest') true (acc ++ ['.']) := by
                simp [scanNumber, hc, hr]
              rw [hstep]
              exact (ih true (acc ++ ['.'])).2 r rfl hr
            · left
              simp [scanNumber, hc, hr]
        · left
          simp [scanNumber, hc, hdot]
    · intro r hr hrInt
      have hc : c = r := by simpa using hr
      subst hc
      simp only [scanNumber, hrInt, if_true]
      rcases (ih hasDec (acc ++ [c])).1 with he | ⟨d, hd, hlast⟩
      · exact ⟨c, hrInt, by rw [he]; exact List.getLast?_concat _⟩
      · exact ⟨d, hd, hlast⟩

/-- Every numeric scan the lexer starts (empty accumulator, no decimal
seen) passes the post-scan check: the scanned literal never ends in `.`,
so the `missing digits after decimal point` rejection cannot fire. -/
theorem numberToken_scan_ok (l : List Char) :
    ∃ tok, numberToken (scanNumber l false []).1 = .ok tok := by
  rcases (scanNumber_last l false []).1 with he | ⟨d, hd, hlast⟩
  · refine ⟨⟨String.mk [], .number⟩, ?_⟩
    simp [numberToken, he]
  · have hdne : d ≠ '.' := isInt_ne hd '.' (by decide)
    have hsome : ¬ (some d = some '.') := by simp [hdne]
    cases hnt : numberToken (scanNumber l false []).1 with
    | ok tok => exact ⟨tok, rfl⟩
    | error msg =>
      exfalso
      simp only [numberToken] at hnt
      by_cases hh : (scanNumber l false []).1.head? = some '.'
      · rw [if_pos hh] at hnt
        have hlast' : ('0' :: (scanNumber l false []).1).getLast? = some d := by
          cases hnum : (scanNumber l false []).1 with
          | nil => rw [hnum] at hlast; cases hlast
          | cons a as =>
            rw [List.getLast?_cons_cons]
            rw [hnum] at hlast
            exact hlast
        rw [if_neg (by rw [hlast']; exact hsome)] at hnt
        cases hnt
      · rw [if_neg hh] at hnt
        rw [if_neg (by rw [hlast]; exact hsome)] at hnt
        cases hnt

theorem unrecognized_ne (c : Char) :
    ("Unrecognized character '" ++ String.mk [c] ++
        "' encountered by lexer. Add support for this character or remove it from the source.")
      ≠ "Invalid numeric literal: missing digits after decimal point." := by
  intro he
  have hlen := congrArg String.length he
  simp only [String.length_append, String.length_mk,
    List.length_singleton] at hlen
  exact absurd hlen (by decide)

/-- Hand-stated equation of one lexer-loop iteration on a nonempty source
(holds by `rfl`). -/
theorem tokenizeLoop_cons_eq (fuel : Nat) (c : Char) (rest : List Char)
    (tokens : List Token) :
    tokenizeLoop (fuel + 1) (c :: rest) tokens =
      (if c = '/' ∧ rest.head? = some '/' then
        tokenizeLoop fuel (skipComment rest.tail) tokens
      else if c = '(' then tokenizeLoop fuel rest (tokens ++ [⟨"(", .openParen⟩])
      else if c = ')' then tokenizeLoop fuel rest (tokens ++ [⟨")", .closeParen⟩])
      else if c = '{' then tokenizeLoop fuel rest (tokens ++ [⟨"\x7b", .openBracket⟩])
      else if c = '}' then tokenizeLoop fuel rest (tokens ++ [⟨"\x7d", .closeBracket⟩])
      else if c = '[' then tokenizeLoop fuel rest (tokens ++ [⟨"[", .openBrace⟩])
      else if c = ']' then tokenizeLoop fuel rest (tokens ++ [⟨"]", .closeBrace⟩])
      else if c = '=' ∧ rest.head? = some '=' then
        tokenizeLoop fuel rest.tail (tokens ++ [⟨"==", .binaryOperator⟩])
      else if c = '!' ∧ rest.head? = some '=' then
        tokenizeLoop fuel rest.tail (tokens ++ [⟨"!=", .binaryOperator⟩])
      else if c = '!' ∧ rest.head? = some '!' then
        tokenizeLoop fuel rest.tail (tokens ++ [⟨"!!", .binaryOperator⟩])
      else if c = '<' ∧ rest.head? = some '=' then
        tokenizeLoop fuel rest.tail (tokens ++ [⟨"<=", .binaryOperator⟩])
      else if c = '>' ∧ rest.head? = some '=' then
        tokenizeLoop fuel rest.tail (tokens ++ [⟨">=", .binaryOperator⟩])
      else if c = '<' ∧ rest.head? = some '-' then
        tokenizeLoop fuel rest.tail (tokens ++ [⟨"<-", .binaryOperator⟩])
      else if c = '&' ∧ rest.head? = some '&' then
        tokenizeLoop fuel rest.tail (tokens ++ [⟨"&&", .binaryOperator⟩])
      else if c = '|' ∧ rest.head? = some '|' then
        tokenizeLoop fuel rest.tail (tokens ++ [⟨"||", .binaryOperator⟩])
      else if c = '|' ∧ rest.head? = some '>' then
        tokenizeLoop fuel rest.tail (tokens ++ [⟨"|>", .binaryOperator⟩])
      else if c = '?' ∧ rest.head? = some '?' then
        tokenizeLoop fuel rest.tail (tokens ++ [⟨"??", .binaryOperator⟩])
      else if c = '+' ∨ c = '-' ∨ c = '*' ∨ c = '/' ∨ c = '%' ∨ c = '<' ∨
          c = '>' ∨ c = '!' ∨ c = '?' then
        tokenizeLoop fuel rest (tokens ++ [⟨String.mk [c], .binaryOperator⟩])
      else if c = '=' then tokenizeLoop fuel rest (tokens ++ [⟨"=", .equals⟩])
      else if c = ';' then tokenizeLoop fuel rest (tokens ++ [⟨";", .semicolon⟩])
      else if c = ',' then tokenizeLoop fuel rest (tokens ++ [⟨",", .comma⟩])
      else if c = '.' then tokenizeLoop fuel rest (tokens ++ [⟨".", .dot⟩])
      else if c = ':' then tokenizeLoop fuel rest (tokens ++ [⟨":", .colon⟩])
      else if c = '"' then
        match scanString rest [] with
        | none => some (.error "Unterminated string literal. Add a closing quote.")
        | some (value, rest') =>
          tokenizeLoop fuel rest' (tokens ++ [⟨value, .str⟩])
      else if isInt c ∨ (c = '.' ∧ (rest.head?.map isInt).getD false = true) then
        match scanNumber (c :: rest) false [] with
        | (num, rest') =>
          match numberToken num with
          | .error msg => some (.error msg)
          | .ok tok => tokenizeLoop fuel rest' (tokens ++ [tok])
      else if isIdentifierStart c then
        match scanIdent (c :: rest) [] with
        | (ident, rest') => tokenizeLoop fuel rest' (tokens ++ [identToken ident])
      else if isSkippable c then tokenizeLoop fuel rest tokens
      else
        some (.error ("Unrecognized character '" ++ String.mk [c] ++
          "' encountered by lexer. Add support for this character or remove it from the source."))) := by
  rfl

/-- No input, at no fuel, makes the lexer return the
`missing digits after decimal point` fatal. -/
theorem tokenizeLoop_no_missing_digits (fuel : Nat) :
    ∀ (src : List Char) (tokens : List Token),
      tokenizeLoop fuel src tokens
        ≠ some (.error "Invalid numeric literal: missing digits after decimal point.") := by
  induction fuel with
  | zero =>
    intro src tokens h
    cases h
  | succ n ih =>
    intro src tokens h
    cases src with
    | nil =>
      rw [tokenizeLoop_nil] at h
      cases h
    | cons c rest =>
      rw [tokenizeLoop_cons_eq] at h
      by_cases h01 : c = '/' ∧ rest.head? = some '/'
      · rw [if_pos h01] at h
        exact ih _ _ h
      rw [if_neg h01] at h
      by_cases h02 : c = '('
      · rw [if_pos h02] at h
        exact ih _ _ h
      rw [if_neg h02] at h
      by_cases h03 : c = ')'
      · rw [if_pos h03] at h
        exact ih _ _ h
      rw [if_neg h03] at h
      by_cases h04 : c = '{'
      · rw [if_pos h04] at h
        exact ih _ _ h
      rw [if_neg h04] at h
      by_cases h05 : c = '}'
      · rw [if_pos h05] at h
        exact ih _ _ h
      rw [if_neg h05] at h
      by_cases h06 : c = '['
      · rw [if_pos h06] at h
        exact ih _ _ h
      rw [if_neg h06] at h
      by_cases h07 : c = ']'
      · rw [if_pos h07] at h
        exact ih _ _ h
      rw [if_neg h07] at h
      by_cases h08 : c = '=' ∧ rest.head? = some '='
      · rw [if_pos h08] at h
        exact ih _ _ h
      rw [if_neg h08] at h
      by_cases h09 : c = '!' ∧ rest.head? = some '='
      · rw [if_pos h09] at h
        exact ih _ _ h
      rw [if_neg h09] at h
      by_cases h10 : c = '!' ∧ rest.head? = some '!'
      · rw [if_pos h10] at h
        exact ih _ _ h
      rw [if_neg h10] at h
      by_cases h11 : c = '<' ∧ rest.head? = some '='
      · rw [if_pos h11] at h
        exact ih _ _ h
      rw [if_neg h11] at h
      by_cases h12 : c = '>' ∧ rest.head? = some '='
      · rw [if_pos h12] at h
        exact ih _ _ h
      rw [if_neg h12] at h
      by_cases h13 : c = '<' ∧ rest.head? = some '-'
      · rw [if_pos h13] at h
        exact ih _ _ h
      rw [if_neg h13] at h
      by_cases h14 : c = '&' ∧ rest.head? = some '&'
      · rw [if_pos h14] at h
        exact ih _ _ h
      rw [if_neg h14] at h
      by_cases h15 : c = '|' ∧ rest.head? = some '|'
      · rw [if_pos h15] at h
        exact ih _ _ h
      rw [if_neg h15] at h
      by_cases h16 : c = '|' ∧ rest.head? = some '>'
      · rw [if_pos h16] at h
        exact ih _ _ h
      rw [if_neg h16] at h
      by_cases h17 : c = '?' ∧ rest.head? = some '?'
      · rw [if_pos h17] at h
        exact ih _ _ h
      rw [if_neg h17] at h
      by_cases h18 : c = '+' ∨ c = '-' ∨ c = '*' ∨ c = '/' ∨ c = '%' ∨ c = '<' ∨ c = '>' ∨ c = '!' ∨ c = '?'
      · rw [if_pos h18] at h
        exact ih _ _ h
      rw [if_neg h18] at h
      by_cases h19 : c = '='
      · rw [if_pos h19] at h
        exact ih _ _ h
      rw [if_neg h19] at h
      by_cases h20 : c = ';'
      · rw [if_pos h20] at h
        exact ih _ _ h
      rw [if_neg h20] at h
      by_cases h21 : c = ','
      · rw [if_pos h21] at h
        exact ih _ _ h
      rw [if_neg h21] at h
      by_cases h22 : c = '.'
      · rw [if_pos h22] at h
        exact ih _ _ h
      rw [if_neg h22] at h
      by_cases h23 : c = ':'
      · rw [if_pos h23] at h
        exact ih _ _ h
      rw [if_neg h23] at h
      by_cases h24 : c = '\"'
      · rw [if_pos h24] at h
        cases hs : scanString rest [] with
        | none =>
          rw [hs] at h
          simp only [Option.some.injEq, Except.error.injEq] at h
          exact absurd h (by decide)
        | some p =>
          obtain ⟨value, rest2⟩ := p
          rw [hs] at h
          simp only [] at h
          exact ih _ _ h
      rw [if_neg h24] at h
      by_cases h25 : isInt c ∨ (c = '.' ∧ (rest.head?.map isInt).getD false = true)
      · rw [if_pos h25] at h
        cases hsc : scanNumber (c :: rest) false [] with
        | mk num rest2 =>
          rw [hsc] at h
          simp only [] at h
          obtain ⟨tok, hok⟩ := numberToken_scan_ok (c :: rest)
          rw [hsc] at hok
          simp only [] at hok
          rw [hok] at h
          simp only [] at h
          exact ih _ _ h
      rw [if_neg h25] at h
      by_cases h26 : isIdentifierStart c
      · rw [if_pos h26] at h
        cases hsi : scanIdent (c :: rest) [] with
        | mk ident rest2 =>
          rw [hsi] at h
          simp only [] at h
          exact ih _ _ h
      rw [if_neg h26] at h
      by_cases h27 : isSkippable c
      · rw [if_pos h27] at h
        exact ih _ _ h
      rw [if_neg h27] at h
      simp only [Option.some.injEq, Except.error.injEq] at h
      exact absurd h (unrecognized_ne c)

/-- Anywhere in any source: a maximal digit run followed by `.` and then a
non-digit (or the end of input) lexes as a `Number` token and a separate
`Dot` token, and the loop continues on the rest. -/
theorem tokenizeLoop_number_dot (fuel : Nat) (ds : List Char) (hne : ds ≠ [])
    (h : ∀ c ∈ ds, isInt c = true) (rest : List Char)
    (hrest : (rest.head?.map isInt).getD false = false) (tokens : List Token) :
    tokenizeLoop (fuel + 2) (ds ++ '.' :: rest) tokens
      = tokenizeLoop fuel rest
          (tokens ++ [⟨String.mk ds, .number⟩, ⟨".", .dot⟩]) := by
  cases ds with
  | nil => exact absurd rfl hne
  | cons d ds' =>
    have hd : isInt d = true := h d (by simp)
    rw [show ((d :: ds') ++ '.' :: rest) = d :: (ds' ++ '.' :: rest) from rfl]
    rw [show fuel + 2 = (fuel + 1) + 1 from rfl]
    rw [tokenizeLoop_digit (fuel + 1) d (ds' ++ '.' :: rest) tokens hd]
    rw [show d :: (ds' ++ '.' :: rest) = (d :: ds') ++ '.' :: rest from rfl]
    rw [scanNumber_digits_any (d :: ds') h rest hrest []]
    have hhead : ¬ ((d :: ds').head? = some '.') := by
      have := isInt_ne hd '.' (by decide)
      simpa using this
    have hlast : ¬ ((d :: ds').getLast? = some '.') :=
      getLast?_digits (d :: ds') h (by simp)
    simp only [numberToken, List.nil_append, if_neg hhead, if_neg hlast]
    rw [tokenizeLoop_dot_cons]
    rw [List.append_assoc]
    rfl

/-! ## Runtime values (runtime/values.ts)

Numbers are modelled as rationals (exact versions of the float arithmetic
the claims exercise; NaN/Infinity and rounding are outside the claims).
Mongo database/collection handles are `ObjectVal`s whose identity-keyed
metadata lives in `WeakMap` stores; they are modelled as `vdb`/`vcoll`
carrying the metadata index.  Function/native-fn/class/promise values do
not occur in the embedded statement/expression subset. -/

inductive Val where
  | vnull
  | vnum (n : ℚ)
  | vbool (b : Bool)
  | vstr (s : String)
  | varr (elems : List Val)
  | vobj (props : List (String × Val)) (schemaName : Option String)
  | vdb (id : Nat)
  | vcoll (id : Nat)
deriving Repr

/-- Non-local transfers of the evaluator: the three control signals
(`ReturnSignal`, `BreakSignal`, `ContinueSignal`), user exceptions
(`RuntimeException`), thrown strings / host `Error`s (`err`, the way the
sources report scope, type and contract violations), and the
`console.error` + `Deno.exit(1)` paths (`fatal`), which unwind past every
construct because the process exits. -/
inductive Sig where
  | ret (v : Val)
  | brk
  | cont
  | exc (v : Val)
  | err (s : String)
  | fatal (s : String)
deriving Repr

/-- JS `Map.get`. -/
def alistGet {α : Type} (l : List (String × α)) (k : String) : Option α :=
  match l with
  | [] => none
  | (k', v) :: rest => if k' = k then some v else alistGet rest k

/-- JS `Map.set`: an existing key keeps its position, a new key is
appended. -/
def alistSet {α : Type} (l : List (String × α)) (k : String) (v : α) :
    List (String × α) :=
  match l with
  | [] => [(k, v)]
  | (k', v') :: rest =>
    if k' = k then (k', v) :: rest else (k', v') :: alistSet rest k v

/-- JS `Map.delete`. -/
def alistRemove {α : Type} (l : List (String × α)) (k : String) :
    List (String × α) :=
  match l with
  | [] => []
  | (k', v') :: rest =>
    if k' = k then rest else (k', v') :: alistRemove rest k

/-! ## Environment (runtime/environment.ts)

An `Environment` is a frame with a parent pointer; frames live in an
append-only store and are addressed by index, mirroring reference
semantics.  Parent pointers always point to earlier frames; the `p < i`
guards make the chain walks terminate and are never taken on states the
evaluator constructs. -/

structure EnvFrame where
  vars : List (String × Val)
  consts : List String
  parent : Option Nat
  moduleExports : Option (List (String × Val))
deriving Repr

abbrev Frames := List EnvFrame

def unresolvedMsg (name : String) : String :=
  "Unable to resolve '" ++ name ++
    "'. Check for typos or ensure it is declared before use."

/-- `Environment.resolve` — walk up the scope chain until the variable is
found, returning the owning frame's index.  The chain-walk recursion is
indexed by a step bound; parent indices strictly decrease, so `envId + 1`
steps always suffice (`resolveEnv` below). -/
def resolveEnvGo : Nat → Frames → Nat → String → Except Sig Nat
  | 0, _, _, name => .error (.err (unresolvedMsg name))
  | steps + 1, frames, envId, name =>
    match frames[envId]? with
    | none => .error (.err (unresolvedMsg name))
    | some f =>
      if (alistGet f.vars name).isSome then .ok envId
      else
        match f.parent with
        | none => .error (.err (unresolvedMsg name))
        | some p =>
          if p < envId then resolveEnvGo steps frames p name
          else .error (.err (unresolvedMsg name))

def resolveEnv (frames : Frames) (envId : Nat) (name : String) :
    Except Sig Nat :=
  resolveEnvGo (envId + 1) frames envId name

/-- `Environment.lookupVar`. -/
def lookupVar (frames : Frames) (envId : Nat) (name : String) :
    Except Sig Val :=
  match resolveEnv frames envId name with
  | .error e => .error e
  | .ok e =>
    match frames[e]? with
    | some f =>
      match alistGet f.vars name with
      | some v => .ok v
      | none => .error (.err (unresolvedMsg name))
    | none => .error (.err (unresolvedMsg name))

/-- `Environment.declareVar` — redeclaration in the same frame is an
error. -/
def declareVar (frames : Frames) (envId : Nat) (name : String) (value : Val)
    (constant : Bool) : Except Sig Frames :=
  match frames[envId]? with
  | none => .error (.err (unresolvedMsg name))
  | some f =>
    if (alistGet f.vars name).isSome then
      .error (.err ("Variable '" ++ name ++
        "' is already declared in this scope. Rename it or assign to the existing binding instead."))
    else
      .ok (frames.set envId
        { f with
          vars := alistSet f.vars name value
          consts := if constant then name :: f.consts else f.consts })

/-- `Environment.assignVar` — resolves the owning frame; reassigning a
constant is an error. -/
def assignVar (frames : Frames) (envId : Nat) (name : String) (value : Val) :
    Except Sig Frames :=
  match resolveEnv frames envId name with
  | .error e => .error e
  | .ok e =>
    match frames[e]? with
    | none => .error (.err (unresolvedMsg name))
    | some f =>
      if name ∈ f.consts then
        .error (.err ("Attempted to reassign constant '" ++ name ++
          "'. Use 'declare' without 'const' if the binding should remain mutable."))
      else
        .ok (frames.set e { f with vars := alistSet f.vars name value })

/-- `Environment.hasOwnBinding`. -/
def hasOwnBinding (frames : Frames) (envId : Nat) (name : String) : Bool :=
  match frames[envId]? with
  | some f => (alistGet f.vars name).isSome
  | none => false

/-- `Environment.hasBinding` — walks the parent chain. -/
def hasBindingGo : Nat → Frames → Nat → String → Bool
  | 0, _, _, _ => false
  | steps + 1, frames, envId, name =>
    match frames[envId]? with
    | none => false
    | some f =>
      if (alistGet f.vars name).isSome then true
      else
        match f.parent with
        | none => false
        | some p => if p < envId then hasBindingGo steps frames p name else false

def hasBinding (frames : Frames) (envId : Nat) (name : String) : Bool :=
  hasBindingGo (envId + 1) frames envId name

/-- `Environment.removeVar` — deletes the nearest binding, walking up;
silent when absent. -/
def removeVarGo : Nat → Frames → Nat → String → Frames
  | 0, frames, _, _ => frames
  | steps + 1, frames, envId, name =>
    match frames[envId]? with
    | none => frames
    | some f =>
      if (alistGet f.vars name).isSome then
        frames.set envId
          { f with
            vars := alistRemove f.vars name
            consts := f.consts.filter (· ≠ name) }
      else
        match f.parent with
        | none => frames
        | some p => if p < envId then removeVarGo steps frames p name else frames

def removeVar (frames : Frames) (envId : Nat) (name : String) : Frames :=
  removeVarGo (envId + 1) frames envId name

/-- `Environment.setModuleExport` — walks to the nearest frame carrying an
export table. -/
def setModuleExportGo : Nat → Frames → Nat → String → Val → Except Sig Frames
  | 0, _, _, name, _ =>
    .error (.err ("Cannot export '" ++ name ++
      "' from this scope. Ensure exports happen within a module."))
  | steps + 1, frames, envId, name, value =>
    match frames[envId]? with
    | none =>
      .error (.err ("Cannot export '" ++ name ++
        "' from this scope. Ensure exports happen within a module."))
    | some f =>
      match f.moduleExports with
      | some exports =>
        .ok (frames.set envId { f with moduleExports := some (alistSet exports name value) })
      | none =>
        match f.parent with
        | none =>
          .error (.err ("Cannot export '" ++ name ++
            "' from this scope. Ensure exports happen within a module."))
        | some p =>
          if p < envId then setModuleExportGo steps frames p name value
          else
            .error (.err ("Cannot export '" ++ name ++
              "' from this scope. Ensure exports happen within a module."))

def setModuleExport (frames : Frames) (envId : Nat) (name : String)
    (value : Val) : Except Sig Frames :=
  setModuleExportGo (envId + 1) frames envId name value

/-! ## AST (frontend/ast.ts), restricted to the node kinds the claims
exercise.  Operators are strings, as in the source. -/

inductive Expr where
  | num (n : ℚ)
  | strLit (s : String)
  | boolLit (b : Bool)
  | nullLit
  | ident (symbol : String)
  | assign (assigne : Expr) (value : Expr)
  | binary (op : String) (left right : Expr)
  | unary (op : String) (operand : Expr)
  | objLit (props : List (String × Option Expr))
  | arrLit (elems : List Expr)
deriving Repr

inductive Stmt where
  | exprStmt (e : Expr)
  | varDecl (constant : Bool) (identifier : String) (value : Option Expr)
  | ifStmt (test : Expr) (consequent : List Stmt) (alternate : Option (List Stmt))
  | whileStmt (test : Expr) (body : List Stmt)
  | returnStmt (argument : Option Expr)
  | breakStmt
  | continueStmt
  | throwStmt (argument : Expr)
  | tryCatch (tryBlock : List Stmt) (catchClause : Option (Option String × List Stmt))
  | importStmt (source : String) (nsBinding : Option String)
      (namedImports : Option (List String)) (defaultBinding : Option String)
  | exportSpecifiers (specifiers : List String)
  | exportDefaultExpr (e : Expr)
  | databaseStmt (identifier : String) (initializer : Expr)
  | collectionStmt (identifier : String) (source : Option Expr)
  | usingStmt (uri : Expr) (database : Option Expr) (aliasName : Option String)
      (options : Option Expr) (body : List Stmt)
deriving Repr

/-! ## Expression evaluator (runtime/eval/expressions.ts)

Expressions in the embedded subset touch only the environment store, so
`evalExpr` threads `Frames`; `none` is fuel exhaustion. -/

/-- `isTruthy` (expressions.ts lines 327–344). -/
def isTruthy : Val → Bool
  | .vbool b => b
  | .vnull => false
  | .vnum n => n ≠ 0
  | .vstr s => s.length > 0
  | .varr elems => elems.length > 0
  | .vobj props _ => props.length > 0
  | _ => true

/-- The `type` tag of a runtime value (`ValueType` strings of values.ts;
Mongo handles are `ObjectVal`s). -/
def valTypeName : Val → String
  | .vnull => "null"
  | .vnum _ => "number"
  | .vbool _ => "boolean"
  | .vstr _ => "string"
  | .varr _ => "array"
  | .vobj _ _ => "object"
  | .vdb _ => "object"
  | .vcoll _ => "object"

mutual

/-- `runtimeValEquals` (expressions.ts lines 346–373).  Arrays and objects
compare by reference in the source (`lhs === rhs`); the embedded subset has
no surface syntax that distinguishes two structurally equal references, and
reference equality is modelled as structural equality. -/
def runtimeValEquals : Val → Val → Bool
  | .vnull, .vnull => true
  | .vnum a, .vnum b => a = b
  | .vbool a, .vbool b => a = b
  | .vstr a, .vstr b => a = b
  | .varr a, .varr b => valListEq a b
  | .vobj a sa, .vobj b sb => valPropsEq a b && sa = sb
  | .vdb a, .vdb b => a = b
  | .vcoll a, .vcoll b => a = b
  | _, _ => false
termination_by structural v => v

def valListEq : List Val → List Val → Bool
  | [], [] => true
  | a :: as', b :: bs => runtimeValEquals a b && valListEq as' bs
  | _, _ => false
termination_by structural l => l

def valPropsEq : List (String × Val) → List (String × Val) → Bool
  | [], [] => true
  | (k, a) :: as', (k', b) :: bs =>
    decide (k = k') && runtimeValEquals a b && valPropsEq as' bs
  | _, _ => false
termination_by structural l => l

end

/-- `compareRuntimeValues` (expressions.ts lines 375–415): numbers or
strings, otherwise an error. -/
def compareRuntimeValues (lhs rhs : Val) (op : String) : Except Sig Val :=
  match lhs, rhs with
  | .vnum a, .vnum b =>
    if op = "<" then .ok (.vbool (a < b))
    else if op = "<=" then .ok (.vbool (a ≤ b))
    else if op = ">" then .ok (.vbool (a > b))
    else if op = ">=" then .ok (.vbool (a ≥ b))
    else .error (.err ("Unsupported relational operator '" ++ op ++ "'."))
  | .vstr a, .vstr b =>
    if op = "<" then .ok (.vbool (a < b))
    else if op = "<=" then .ok (.vbool (a ≤ b))
    else if op = ">" then .ok (.vbool (a > b))
    else if op = ">=" then .ok (.vbool (a ≥ b))
    else .error (.err ("Unsupported relational operator '" ++ op ++ "'."))
  | _, _ =>
    .error (.err ("Operator '" ++ op ++
      "' expects comparable operands (number or string) but received '" ++
      valTypeName lhs ++ "' and '" ++ valTypeName rhs ++ "'."))

/-- `stringify` (expressions.ts lines 312–325); integral rationals print as
integers, matching JS integer formatting (non-integral formatting and the
`JSON.stringify` fallback are best-effort, per spec §9). -/
def stringify : Val → String
  | .vnum n => if n.den = 1 then toString n.num else toString n
  | .vbool b => if b then "true" else "false"
  | .vnull => "null"
  | .vstr s => s
  | v => "<" ++ valTypeName v ++ ">"

/-- `eval_numeric_binary_expr` (expressions.ts lines 51–83): division by
zero (or an unknown operator) is caught internally and exits the process —
a `fatal`.  The `%` of the source is JS float remainder; the claims do not
exercise it and a zero divisor (JS `NaN`) is modelled as an unused total
value. -/
def evalNumericBinary (lhs rhs : ℚ) (op : String) : Except Sig Val :=
  if op = "+" then .ok (.vnum (lhs + rhs))
  else if op = "-" then .ok (.vnum (lhs - rhs))
  else if op = "*" then .ok (.vnum (lhs * rhs))
  else if op = "/" then
    if rhs = 0 then
      .error (.fatal ("Runtime error while evaluating '/' expression: Cannot divide " ++
        toString lhs.num ++ " by zero. Provide a non-zero denominator."))
    else .ok (.vnum (lhs / rhs))
  else if op = "%" then
    .ok (.vnum (lhs - rhs * ((lhs / rhs).floor : ℚ)))
  else
    .error (.fatal ("Runtime error while evaluating '" ++ op ++
      "' expression: Unsupported operator '" ++ op ++
      "'. Allowed operators are +, -, *, /, and %."))

/-- AST `kind` strings for the embedded expression constructors. -/
def exprKindName : Expr → String
  | .num _ => "NumericLiteral"
  | .strLit _ => "StringLiteral"
  | .boolLit _ => "BooleanLiteral"
  | .nullLit => "NullLiteral"
  | .ident _ => "Identifier"
  | .assign _ _ => "AssignmentExpr"
  | .binary _ _ _ => "BinaryExpr"
  | .unary _ _ => "UnaryExpr"
  | .objLit _ => "ObjectLiteral"
  | .arrLit _ => "ArrayLiteral"

/-- The non-short-circuit operator dispatch of `eval_binary_expression`
(expressions.ts lines 113–162), applied to already-evaluated operands. -/
def evalBinaryOnValues (op : String) (lhs rhs : Val) : Except Sig Val :=
  if op = "+" then
    match lhs, rhs with
    | .vstr a, .vstr b => .ok (.vstr (a ++ b))
    | .vstr a, b => .ok (.vstr (a ++ stringify b))
    | a, .vstr b => .ok (.vstr (stringify a ++ b))
    | .vnum a, .vnum b => evalNumericBinary a b "+"
    | a, b =>
      .error (.err ("Operator '+' expects number or string operands but received '" ++
        valTypeName a ++ "' and '" ++ valTypeName b ++ "'."))
  else if op = "-" ∨ op = "*" ∨ op = "/" ∨ op = "%" then
    match lhs, rhs with
    | .vnum a, .vnum b => evalNumericBinary a b op
    | a, b =>
      .error (.err ("Operator '" ++ op ++
        "' expects numeric operands but received '" ++ valTypeName a ++
        "' and '" ++ valTypeName b ++ "'."))
  else if op = "==" then .ok (.vbool (runtimeValEquals lhs rhs))
  else if op = "!=" then .ok (.vbool (!runtimeValEquals lhs rhs))
  else if op = "<" ∨ op = "<=" ∨ op = ">" ∨ op = ">=" then
    compareRuntimeValues lhs rhs op
  else .error (.err ("Unsupported binary operator '" ++ op ++ "'."))

/-- The property loop of `eval_object_expr`: a shorthand `{x}` looks the
name up in scope.  The evaluator for the property value expressions is
passed in (it is `evalExpr` at the enclosing fuel). -/
def runObjProps (ev : Frames → Nat → Expr → Option (Frames × Except Sig Val)) :
    Frames → Nat → List (String × Option Expr) → List (String × Val) →
    Option (Frames × Except Sig (List (String × Val)))
  | frames, _, [], acc => some (frames, .ok acc)
  | frames, envId, (key, valueExpr) :: rest, acc =>
    match valueExpr with
    | none =>
      match lookupVar frames envId key with
      | .error s => some (frames, .error s)
      | .ok v => runObjProps ev frames envId rest (alistSet acc key v)
    | some ve =>
      match ev frames envId ve with
      | none => none
      | some (f1, .error s) => some (f1, .error s)
      | some (f1, .ok v) => runObjProps ev f1 envId rest (alistSet acc key v)

/-- The element loop of `eval_array_literal`. -/
def runExprList (ev : Frames → Nat → Expr → Option (Frames × Except Sig Val)) :
    Frames → Nat → List Expr → List Val →
    Option (Frames × Except Sig (List Val))
  | frames, _, [], acc => some (frames, .ok acc.reverse)
  | frames, envId, e :: rest, acc =>
    match ev frames envId e with
    | none => none
    | some (f1, .error s) => some (f1, .error s)
    | some (f1, .ok v) => runExprList ev f1 envId rest (v :: acc)

/-- The expression dispatch of `evaluate` (runtime/interpreter.ts) together
with the expression evaluators of runtime/eval/expressions.ts.  Expressions
in the embedded subset touch only the frame store. -/
def evalExpr : Nat → Frames → Nat → Expr → Option (Frames × Except Sig Val)
  | 0, _, _, _ => none
  | fuel + 1, frames, envId, e =>
    match e with
    | .num n => some (frames, .ok (.vnum n))
    | .strLit s => some (frames, .ok (.vstr s))
    | .boolLit b => some (frames, .ok (.vbool b))
    | .nullLit => some (frames, .ok .vnull)
    | .ident name => some (frames, lookupVar frames envId name)
    | .assign target value =>
      -- eval_assignment: the target must be an identifier; then the value
      -- is evaluated and stored via assignVar, which yields the value.
      match target with
      | .ident varname =>
        match evalExpr fuel frames envId value with
        | none => none
        | some (frames1, .error s) => some (frames1, .error s)
        | some (frames1, .ok v) =>
          match assignVar frames1 envId varname v with
          | .ok frames2 => some (frames2, .ok v)
          | .error s => some (frames1, .error s)
      | _ =>
        some (frames, .error (.err
          ("Invalid assignment target: expected an identifier on the left-hand side but received '" ++
            exprKindName target ++ "'.")))
    | .binary op left right =>
      -- eval_binary_expression: `&&`/`||` short-circuit on the left
      -- operand's truthiness and produce booleans; the other operators
      -- evaluate both operands first.
      if op = "&&" then
        match evalExpr fuel frames envId left with
        | none => none
        | some (f1, .error s) => some (f1, .error s)
        | some (f1, .ok l) =>
          if isTruthy l then
            match evalExpr fuel f1 envId right with
            | none => none
            | some (f2, .error s) => some (f2, .error s)
            | some (f2, .ok r) => some (f2, .ok (.vbool (isTruthy r)))
          else some (f1, .ok (.vbool false))
      else if op = "||" then
        match evalExpr fuel frames envId left with
        | none => none
        | some (f1, .error s) => some (f1, .error s)
        | some (f1, .ok l) =>
          if isTruthy l then some (f1, .ok (.vbool true))
          else
            match evalExpr fuel f1 envId right with
            | none => none
            | some (f2, .error s) => some (f2, .error s)
            | some (f2, .ok r) => some (f2, .ok (.vbool (isTruthy r)))
      else
        match evalExpr fuel frames envId left with
        | none => none
        | some (f1, .error s) => some (f1, .error s)
        | some (f1, .ok lhs) =>
          match evalExpr fuel f1 envId right with
          | none => none
          | some (f2, .error s) => some (f2, .error s)
          | some (f2, .ok rhs) =>
            some (f2, evalBinaryOnValues op lhs rhs)
    | .unary op operand =>
      match evalExpr fuel frames envId operand with
      | none => none
      | some (f1, .error s) => some (f1, .error s)
      | some (f1, .ok v) =>
        if op = "!" then some (f1, .ok (.vbool (!isTruthy v)))
        else if op = "-" then
          match v with
          | .vnum n => some (f1, .ok (.vnum (-n)))
          | _ =>
            some (f1, .error (.err ("Unary '-' expects a numeric operand but received '" ++
              valTypeName v ++ "'.")))
        else
          some (f1, .error (.err ("Unsupported unary operator '" ++ op ++ "'.")))
    | .objLit props =>
      match runObjProps (evalExpr fuel) frames envId props [] with
      | none => none
      | some (f1, .error s) => some (f1, .error s)
      | some (f1, .ok ps) => some (f1, .ok (.vobj ps none))
    | .arrLit elems =>
      match runExprList (evalExpr fuel) frames envId elems [] with
      | none => none
      | some (f1, .error s) => some (f1, .error s)
      | some (f1, .ok vs) => some (f1, .ok (.varr vs))

/-! ## Process-wide state: Mongo registry (runtime/mongoState.ts), handle
metadata (runtime/mongo.ts), module loader (runtime/moduleLoader.ts)

External effects are instrumented with an event trace (most recent first):
connection opening, disconnect attempts, and the start of a module body's
evaluation. -/

/-- `DatabaseMeta` (mongo.ts): the driver `client`/`database` members are
external I/O handles and are not modelled. -/
structure DbMeta where
  uri : String
  name : String
  closed : Bool
  collections : List (String × Nat)
deriving Repr

/-- `CollectionMeta` (mongo.ts); `defaults` (set by
`setCollectionDefaults`) is stored raw, its normalization is driver-facing
and outside the claims. -/
structure CollMeta where
  name : String
  dbId : Nat
  defaults : List (String × Val)
deriving Repr

inductive Event where
  | connected (dbId : Nat)
  | disconnectAttempted (dbId : Nat)
  | moduleEvalStarted (path : String)
deriving DecidableEq, Repr

structure MongoSt where
  dbMetas : List DbMeta
  collMetas : List CollMeta
  /-- `mongoState.ts` `databaseBinding`. -/
  databaseBinding : Option String
  /-- `mongoState.ts` `collectionBindings` (a `Set`, insertion-ordered). -/
  collectionBindings : List String
  /-- Oracle: the database ids whose driver `close()` call throws. -/
  closeFailures : List Nat
deriving Repr

/-- `MongoStateSnapshot` (mongoState.ts). -/
structure MongoSnapshot where
  database : Option String
  collections : List String
deriving Repr

def captureMongoState (m : MongoSt) : MongoSnapshot :=
  ⟨m.databaseBinding, m.collectionBindings⟩

def restoreMongoState (m : MongoSt) (s : MongoSnapshot) : MongoSt :=
  { m with databaseBinding := s.database, collectionBindings := s.collections }

def clearDatabaseBinding (m : MongoSt) : MongoSt :=
  { m with databaseBinding := none }

def registerDatabaseBinding (m : MongoSt) (name : String) : MongoSt :=
  { m with databaseBinding := some name }

def registerCollectionBinding (m : MongoSt) (name : String) : MongoSt :=
  { m with collectionBindings :=
      if name ∈ m.collectionBindings then m.collectionBindings
      else m.collectionBindings ++ [name] }

/-- `consumeCollectionBindings`: returns the names and clears the set. -/
def consumeCollectionBindings (m : MongoSt) : List String × MongoSt :=
  (m.collectionBindings, { m with collectionBindings := [] })

structure ModSt where
  /-- The parsed file system: what `getModuleProgram` (read + parse,
  memoized) yields per path.  Parsing is deterministic, so the program
  cache is observationally the lookup itself. -/
  sourcePrograms : List (String × List Stmt)
  resultCache : List (String × Val)
  inProgress : List String
  /-- `moduleStack`, head = top. -/
  moduleStack : List String
  /-- `Deno.cwd()`. -/
  cwd : String
deriving Repr

structure St where
  frames : Frames
  mongo : MongoSt
  modules : ModSt
  trace : List Event
deriving Repr

/-! ### Module path resolution (moduleLoader.ts)

`@std/path`'s `normalize` (dot-segment collapsing) is external library code
and is modelled as the identity; the claims quantify over already-normal
paths. -/

/-- JS `String.prototype.split("/")` on the character list (the library
`String.splitOn` is not kernel-reducible, so the primitive is spelled out). -/
def splitOnChar (c : Char) : List Char → List (List Char)
  | [] => [[]]
  | x :: xs =>
    match splitOnChar c xs with
    | [] => [[]]
    | part :: rest => if x = c then [] :: part :: rest else (x :: part) :: rest

def splitPath (p : String) : List String :=
  (splitOnChar '/' p.toList).map (fun l => String.mk l)

/-- `"/".join(parts)`. -/
def joinSlash : List String → String
  | [] => ""
  | [x] => x
  | x :: rest => x ++ "/" ++ joinSlash rest

/-- `String.prototype.startsWith`, spelled on character lists. -/
def charsPrefix : List Char → List Char → Bool
  | [], _ => true
  | _ :: _, [] => false
  | a :: as, b :: bs => a = b && charsPrefix as bs

def strStartsWith (s p : String) : Bool := charsPrefix p.toList s.toList

/-- The characters `String.prototype.trim` strips (ASCII whitespace
suffices for the embedded programs). -/
def wsChar (c : Char) : Bool := c = ' ' || c = '\t' || c = '\n' || c = '\r'

/-- `String.prototype.trim`, spelled on character lists. -/
def trimStr (s : String) : String :=
  String.mk (((s.toList.dropWhile wsChar).reverse.dropWhile wsChar).reverse)

def isAbsolutePath (p : String) : Bool := strStartsWith p "/"

/-- `dirname`. -/
def dirnamePath (p : String) : String :=
  let parts := splitPath p
  match parts with
  | [] => "."
  | [_] => "."
  | _ => joinSlash (parts.dropLast)

/-- `resolve(baseDir, candidate)` for a relative candidate. -/
def joinPath (base rel : String) : String := base ++ "/" ++ rel

/-- `extname(p) ≠ ""`: the basename contains a dot. -/
def hasExtension (p : String) : Bool :=
  match (splitPath p).getLast? with
  | some basename => basename.toList.contains '.'
  | none => false

/-- `resolveImportPath` (moduleLoader.ts lines 272–286). -/
def resolveImportPath (m : ModSt) (specifier : String) : String :=
  let baseDir :=
    match m.moduleStack.head? with
    | some importer => dirnamePath importer
    | none => m.cwd
  let candidate :=
    if isAbsolutePath specifier then specifier else joinPath baseDir specifier
  if hasExtension candidate then candidate else candidate ++ ".ds"

/-! ### Mongo handles (runtime/mongo.ts) -/

def isMongoDatabase : Val → Bool
  | .vdb _ => true
  | _ => false

def isMongoCollection : Val → Bool
  | .vcoll _ => true
  | _ => false

/-- `extractDatabaseNameFromUri` (mongo.ts lines 373–409);
`decodeURIComponent` is modelled as the identity. -/
def extractDatabaseNameFromUri (uri : String) : Option String :=
  match uri.splitOn "://" with
  | [] => none
  | [_] => none
  | _ :: restParts =>
    let after := String.intercalate "://" restParts
    match after.splitOn "/" with
    | [] => none
    | [_] => none
    | _ :: pathParts =>
      let pathAndQuery := String.intercalate "/" pathParts
      if pathAndQuery = "" then none
      else
        let path := (pathAndQuery.splitOn "?").headD ""
        if path = "" then none
        else
          let rawName := (path.splitOn "/").headD ""
          let trimmed := trimStr rawName
          if trimmed = "" then none else some trimmed

/-- `resolveDatabaseName` (mongo.ts lines 356–371). -/
def resolveDatabaseName (uri : String) (explicit : Option String) : String :=
  match explicit with
  | some e => if trimStr e ≠ "" then trimStr e else
      (extractDatabaseNameFromUri uri).getD "test"
  | none => (extractDatabaseNameFromUri uri).getD "test"

/-- `connectMongo` (mongo.ts lines 51–111): scheme validation, then a
database handle is created (`createDatabaseValue`).  The driver connection
itself is external I/O, modelled as succeeding; the URI normalization
(`ensureScramSha1AuthMechanism`, `sanitizeMongoCredentials`) only rewrites
the stored connection string and is modelled as the identity. -/
def connectMongo (st : St) (uri : String) (dbName : Option String) :
    St × Except Sig Val :=
  let trimmed := trimStr uri
  if !(strStartsWith trimmed "mongodb://" || strStartsWith trimmed "mongodb+srv://") then
    (st, .error (.err "Mongo connection strings must start with 'mongodb://' or 'mongodb+srv://'"))
  else
    let resolvedName := resolveDatabaseName trimmed dbName
    let id := st.mongo.dbMetas.length
    let meta : DbMeta := ⟨trimmed, resolvedName, false, []⟩
    ({ st with
        mongo := { st.mongo with dbMetas := st.mongo.dbMetas ++ [meta] }
        trace := .connected id :: st.trace },
      .ok (.vdb id))

/-- `disconnectMongo` (mongo.ts lines 260–271): close unless already
closed; the driver `close()` may throw (the `closeFailures` oracle), in
which case the meta is left open. -/
def disconnectMongo (st : St) (v : Val) : St × Except Sig Val :=
  match v with
  | .vdb id =>
    match st.mongo.dbMetas[id]? with
    | none => (st, .error (.err "disconnect expects a Mongo database handle."))
    | some meta =>
      if meta.closed then (st, .ok .vnull)
      else if id ∈ st.mongo.closeFailures then
        (st, .error (.err "Mongo client close failed."))
      else
        ({ st with mongo := { st.mongo with
            dbMetas := st.mongo.dbMetas.set id { meta with closed := true, collections := [] } } },
          .ok .vnull)
  | _ => (st, .error (.err "disconnect expects a Mongo database handle."))

/-- `createCollectionFromDatabase` (mongo.ts lines 273–297): cached per
database; requires the connection to be open.  (The source additionally
mirrors the collection as a property of the database `ObjectVal`; handle
properties are not part of the embedded value model.) -/
def createCollectionFromDatabase (st : St) (dbVal : Val) (name : String) :
    St × Except Sig Val :=
  match dbVal with
  | .vdb id =>
    match st.mongo.dbMetas[id]? with
    | none =>
      (st, .error (.err ("Collection '" ++ name ++
        "' requested from a value that is not a Mongo database.")))
    | some meta =>
      match alistGet meta.collections name with
      | some collId => (st, .ok (.vcoll collId))
      | none =>
        if meta.closed then
          (st, .error (.err "The Mongo database connection has been closed. Reconnect before performing operations."))
        else
          let collId := st.mongo.collMetas.length
          let collMeta : CollMeta := ⟨name, id, []⟩
          ({ st with mongo := { st.mongo with
              collMetas := st.mongo.collMetas ++ [collMeta]
              dbMetas := st.mongo.dbMetas.set id
                { meta with collections := alistSet meta.collections name collId } } },
            .ok (.vcoll collId))
  | _ =>
    (st, .error (.err ("Collection '" ++ name ++
      "' requested from a value that is not a Mongo database.")))

/-- `setCollectionDefaults` (mongo.ts): stores the defaults on the
collection meta (their driver-facing normalization is outside the
claims). -/
def setCollectionDefaults (st : St) (collVal : Val) (defaults : List (String × Val)) : St :=
  match collVal with
  | .vcoll id =>
    match st.mongo.collMetas[id]? with
    | some meta =>
      { st with mongo := { st.mongo with
          collMetas := st.mongo.collMetas.set id { meta with defaults := defaults } } }
    | none => st
  | _ => st

/-! ## Statement-level helpers (runtime/eval/statements.ts) -/

/-- Lift an expression result into the full interpreter state (expressions
touch only the frame store). -/
def liftExpr (st : St) (r : Option (Frames × Except Sig Val)) :
    Option (St × Except Sig Val) :=
  match r with
  | none => none
  | some (f, x) => some ({ st with frames := f }, x)

/-- `convertErrorToRuntimeVal` (statements.ts lines 673–687): a
`RuntimeException` yields its payload, a thrown string becomes a string
value.  Control signals and fatal exits never reach this function (the
former are rethrown first, the latter terminate the process); their images
mirror JS `String(error)` coercion. -/
def convertErrorToRuntimeVal : Sig → Val
  | .exc v => v
  | .err s => .vstr s
  | .fatal s => .vstr s
  | _ => .vstr "[object Object]"

/-- `getNamespaceExport` (statements.ts lines 732–743). -/
def getNamespaceExport (ns : Val) (name : String) : Except Sig Val :=
  match ns with
  | .vobj props _ =>
    match alistGet props name with
    | some v => .ok v
    | none => .error (.err ("Module does not export '" ++ name ++ "'."))
  | _ => .error (.err "Import target did not evaluate to a module namespace object.")

/-- `bindImportBinding` (statements.ts lines 711–721). -/
def bindImportBinding (frames : Frames) (envId : Nat) (name : String)
    (value : Val) : Except Sig Frames :=
  if hasOwnBinding frames envId name then
    .error (.err ("Cannot import binding '" ++ name ++
      "' because it already exists in this scope."))
  else declareVar frames envId name value true

/-- The `exposing { … }` loop of `applyImportBindings`. -/
def bindNamedImports (frames : Frames) (envId : Nat) (ns : Val) :
    List String → Except Sig Frames
  | [] => .ok frames
  | name :: rest =>
    match getNamespaceExport ns name with
    | .error s => .error s
    | .ok v =>
      match bindImportBinding frames envId name v with
      | .error s => .error s
      | .ok f1 => bindNamedImports f1 envId ns rest

/-- `applyImportBindings` (statements.ts lines 689–709). -/
def applyImportBindings (frames : Frames) (envId : Nat) (ns : Val)
    (nsBinding : Option String) (namedImports : Option (List String))
    (defaultBinding : Option String) : Except Sig Frames :=
  let step1 :=
    match nsBinding with
    | some n => bindImportBinding frames envId n ns
    | none => .ok frames
  match step1 with
  | .error s => .error s
  | .ok f1 =>
    let step2 :=
      match namedImports with
      | some names => bindNamedImports f1 envId ns names
      | none => .ok f1
    match step2 with
    | .error s => .error s
    | .ok f2 =>
      match defaultBinding with
      | some name =>
        match getNamespaceExport ns "default" with
        | .error s => .error s
        | .ok v => bindImportBinding f2 envId name v
      | none => .ok f2

/-- `buildNamespaceValue` (statements.ts lines 723–730), reading the export
table of the module environment after evaluation. -/
def buildNamespaceValue (frames : Frames) (moduleEnvId : Nat) : Val :=
  match frames[moduleEnvId]? with
  | some f => .vobj (f.moduleExports.getD []) none
  | none => .vobj [] none

/-- `popModuleContext` + `clearModuleInProgress`: the `finally` of
`eval_import_statement`. -/
def finallyModule (st : St) (path : String) : St :=
  { st with modules := { st.modules with
      moduleStack := st.modules.moduleStack.tail
      inProgress := st.modules.inProgress.filter (· ≠ path) } }

/-- The export loop of `eval_export_declaration`'s specifier form. -/
def exportSpecLoop (frames : Frames) (envId : Nat) :
    List String → Except Sig Frames
  | [] => .ok frames
  | name :: rest =>
    match lookupVar frames envId name with
    | .error s => .error s
    | .ok v =>
      match setModuleExport frames envId name v with
      | .error s => .error s
      | .ok f1 => exportSpecLoop f1 envId rest

/-- The common tail of `eval_collection_statement` (lines 195–199): remove
any existing binding, re-declare as a constant, register the name. -/
def finishCollection (st : St) (envId : Nat) (bindingName : String)
    (value : Val) : Option (St × Except Sig Val) :=
  let frames1 := removeVar st.frames envId bindingName
  match declareVar frames1 envId bindingName value true with
  | .error s => some ({ st with frames := frames1 }, .error s)
  | .ok frames2 =>
    some ({ st with
        frames := frames2
        mongo := registerCollectionBinding st.mongo bindingName },
      .ok value)

/-- The `opts.collections` pre-creation loop of `eval_using_statement`
(lines 315–337): non-object defaults are skipped. -/
def setupUsingCollections (st : St) (scopedEnvId : Nat) (databaseValue : Val) :
    List (String × Val) → St × Except Sig Unit
  | [] => (st, .ok ())
  | (name, defaults) :: rest =>
    match defaults with
    | .vobj dprops _ =>
      match createCollectionFromDatabase st databaseValue name with
      | (st1, .error s) => (st1, .error s)
      | (st1, .ok collectionValue) =>
        let frames1 :=
          if hasBinding st1.frames scopedEnvId name then
            removeVar st1.frames scopedEnvId name
          else st1.frames
        match declareVar frames1 scopedEnvId name collectionValue true with
        | .error s => ({ st1 with frames := frames1 }, .error s)
        | .ok frames2 =>
          let st2 := { st1 with
            frames := frames2
            mongo := registerCollectionBinding st1.mongo name }
          let st3 := setCollectionDefaults st2 collectionValue dprops
          setupUsingCollections st3 scopedEnvId databaseValue rest
    | _ => setupUsingCollections st scopedEnvId databaseValue rest

/-- The `finally` of `eval_using_statement` (lines 345–354): attempt the
disconnect (failures ignored), clear the registry, restore the snapshot.
None of these steps can throw, so the body's outcome passes through. -/
def usingCleanup (st : St) (dbId : Nat) (snapshot : MongoSnapshot) : St :=
  let st1 := { st with trace := .disconnectAttempted dbId :: st.trace }
  let st2 :=
    match disconnectMongo st1 (.vdb dbId) with
    | (st', .ok _) => st'
    | (st', .error _) => st'
  let mongo1 := clearDatabaseBinding st2.mongo
  let (_, mongo2) := consumeCollectionBindings mongo1
  { st2 with mongo := restoreMongoState mongo2 snapshot }

/-! ## Statement evaluator (runtime/eval/statements.ts, runtime/interpreter.ts)

The statement evaluator recurses on fuel; block/program/loop iteration is
factored into list-structural helpers parameterized by the statement
evaluator at the enclosing fuel. -/

/-- The `database <db-expr>` clause of `eval_using_statement` (lines
270–277). -/
def evalUsingDbName : Nat → St → Nat → Option Expr →
    Option (St × Except Sig (Option String))
  | _, st, _, none => some (st, .ok none)
  | fuel, st, envId, some e =>
    match evalExpr fuel st.frames envId e with
    | none => none
    | some (f1, .error s) => some ({ st with frames := f1 }, .error s)
    | some (f1, .ok v) =>
      match v with
      | .vstr s => some ({ st with frames := f1 }, .ok (some (trimStr s)))
      | _ =>
        some ({ st with frames := f1 },
          .error (.err "using mongo database expression must evaluate to a string."))

/-- The `with <options-expr>` clause of `eval_using_statement` (lines
279–298): a non-null non-object is an error; a `collections` object is the
pre-creation config. -/
def evalUsingOptions : Nat → St → Nat → Option Expr →
    Option (St × Except Sig (Option (List (String × Val))))
  | _, st, _, none => some (st, .ok none)
  | fuel, st, envId, some e =>
    match evalExpr fuel st.frames envId e with
    | none => none
    | some (f1, .error s) => some ({ st with frames := f1 }, .error s)
    | some (f1, .ok v) =>
      match v with
      | .vobj props _ =>
        match alistGet props "collections" with
        | some (.vobj cprops _) => some ({ st with frames := f1 }, .ok (some cprops))
        | _ => some ({ st with frames := f1 }, .ok none)
      | .vnull => some ({ st with frames := f1 }, .ok none)
      | _ =>
        some ({ st with frames := f1 },
          .error (.err "using mongo options must be an object."))

/-- `evaluateBlock` (statements.ts lines 662–671): run the statements in
order, returning the last value (null for an empty block). -/
def runSeq (ev : St → Nat → Stmt → Option (St × Except Sig Val)) :
    St → Nat → List Stmt → Option (St × Except Sig Val)
  | st, _, [] => some (st, .ok .vnull)
  | st, envId, stmt :: rest =>
    match ev st envId stmt with
    | none => none
    | some (st1, .error s) => some (st1, .error s)
    | some (st1, .ok v) =>
      match rest with
      | [] => some (st1, .ok v)
      | _ :: _ => runSeq ev st1 envId rest

/-- `eval_program` (statements.ts lines 76–101): statements in order,
stray control signals become (string) errors, the last value is returned. -/
def runProgram (ev : St → Nat → Stmt → Option (St × Except Sig Val)) :
    St → Nat → List Stmt → Val → Option (St × Except Sig Val)
  | st, _, [], last => some (st, .ok last)
  | st, envId, stmt :: rest, _ =>
    match ev st envId stmt with
    | none => none
    | some (st1, .ok v) => runProgram ev st1 envId rest v
    | some (st1, .error sig) =>
      match sig with
      | .ret _ => some (st1, .error (.err "Return statements are only allowed inside functions."))
      | .brk => some (st1, .error (.err "Break statements are only allowed inside loops."))
      | .cont => some (st1, .error (.err "Continue statements are only allowed inside loops."))
      | s => some (st1, .error s)

/-- The `while` loop of `eval_while_statement`: break exits with the last
completed iteration's value, continue resets it to null.  The first `Nat`
is the loop-iteration fuel. -/
def runWhile (xev : Frames → Nat → Expr → Option (Frames × Except Sig Val))
    (ev : St → Nat → Stmt → Option (St × Except Sig Val)) :
    Nat → St → Nat → Expr → List Stmt → Val → Option (St × Except Sig Val)
  | 0, _, _, _, _, _ => none
  | n + 1, st, envId, test, body, result =>
    match xev st.frames envId test with
    | none => none
    | some (f1, .error s) => some ({ st with frames := f1 }, .error s)
    | some (f1, .ok t) =>
      let st1 := { st with frames := f1 }
      if isTruthy t then
        match runSeq ev st1 envId body with
        | none => none
        | some (st2, .ok v) => runWhile xev ev n st2 envId test body v
        | some (st2, .error .brk) => some (st2, .ok result)
        | some (st2, .error .cont) => runWhile xev ev n st2 envId test body .vnull
        | some (st2, .error s) => some (st2, .error s)
      else some (st1, .ok result)

def evalStmt : Nat → St → Nat → Stmt → Option (St × Except Sig Val)
  | 0, _, _, _ => none
  | fuel + 1, st, envId, stmt =>
    match stmt with
    | .exprStmt e => liftExpr st (evalExpr fuel st.frames envId e)
    | .varDecl constant identifier value =>
      -- eval_var_declaration
      match value with
      | some ve =>
        match evalExpr fuel st.frames envId ve with
        | none => none
        | some (f1, .error s) => some ({ st with frames := f1 }, .error s)
        | some (f1, .ok v) =>
          match declareVar f1 envId identifier v constant with
          | .ok f2 => some ({ st with frames := f2 }, .ok v)
          | .error s => some ({ st with frames := f1 }, .error s)
      | none =>
        match declareVar st.frames envId identifier .vnull constant with
        | .ok f2 => some ({ st with frames := f2 }, .ok .vnull)
        | .error s => some (st, .error s)
    | .ifStmt test consequent alternate =>
      -- eval_if_statement (blocks run in the same environment)
      match evalExpr fuel st.frames envId test with
      | none => none
      | some (f1, .error s) => some ({ st with frames := f1 }, .error s)
      | some (f1, .ok t) =>
        let st1 := { st with frames := f1 }
        if isTruthy t then runSeq (evalStmt fuel) st1 envId consequent
        else
          match alternate with
          | none => some (st1, .ok .vnull)
          | some alt => runSeq (evalStmt fuel) st1 envId alt
    | .whileStmt test body => runWhile (evalExpr fuel) (evalStmt fuel) fuel st envId test body .vnull
    | .returnStmt argument =>
      -- eval_return_statement: throw a ReturnSignal
      match argument with
      | some e =>
        match evalExpr fuel st.frames envId e with
        | none => none
        | some (f1, .error s) => some ({ st with frames := f1 }, .error s)
        | some (f1, .ok v) => some ({ st with frames := f1 }, .error (.ret v))
      | none => some (st, .error (.ret .vnull))
    | .breakStmt => some (st, .error .brk)
    | .continueStmt => some (st, .error .cont)
    | .throwStmt argument =>
      -- eval_throw_statement: throw a RuntimeException with the value
      match evalExpr fuel st.frames envId argument with
      | none => none
      | some (f1, .error s) => some ({ st with frames := f1 }, .error s)
      | some (f1, .ok v) => some ({ st with frames := f1 }, .error (.exc v))
    | .tryCatch tryBlock catchClause =>
      -- eval_try_catch_statement: control signals are rethrown; fatal exits
      -- unwind past everything; anything else reaches the catch clause.
      match runSeq (evalStmt fuel) st envId tryBlock with
      | none => none
      | some (st1, .ok v) => some (st1, .ok v)
      | some (st1, .error sig) =>
        match sig with
        | .ret v => some (st1, .error (.ret v))
        | .brk => some (st1, .error .brk)
        | .cont => some (st1, .error .cont)
        | .fatal s => some (st1, .error (.fatal s))
        | _ =>
          match catchClause with
          | none => some (st1, .error sig)
          | some (param, catchBody) =>
            let value := convertErrorToRuntimeVal sig
            let catchEnvId := st1.frames.length
            let frames1 := st1.frames ++ [⟨[], [], some envId, none⟩]
            match param with
            | some p =>
              match declareVar frames1 catchEnvId p value false with
              | .ok frames2 => runSeq (evalStmt fuel) { st1 with frames := frames2 } catchEnvId catchBody
              | .error s => some ({ st1 with frames := frames1 }, .error s)
            | none => runSeq (evalStmt fuel) { st1 with frames := frames1 } catchEnvId catchBody
    | .importStmt source nsBinding namedImports defaultBinding =>
      -- eval_import_statement
      let resolvedPath := resolveImportPath st.modules source
      match alistGet st.modules.resultCache resolvedPath with
      | some cached =>
        match applyImportBindings st.frames envId cached nsBinding namedImports defaultBinding with
        | .error s => some (st, .error s)
        | .ok frames1 => some ({ st with frames := frames1 }, .ok cached)
      | none =>
        match alistGet st.modules.sourcePrograms resolvedPath with
        | none =>
          -- Deno.readTextFileSync: missing file throws a host error
          some (st, .error (.err ("No such file or directory (os error 2): readfile '" ++
            resolvedPath ++ "'")))
        | some program =>
          let moduleEnvId := st.frames.length
          let st1 := { st with frames := st.frames ++ [⟨[], [], some envId, some []⟩] }
          -- markModuleInProgress runs before the try block: a circular
          -- import propagates without the finally cleanup.
          if resolvedPath ∈ st1.modules.inProgress then
            some (st1, .error (.err ("Circular module import detected while loading '" ++
              resolvedPath ++ "'.")))
          else
            let st2 := { st1 with modules := { st1.modules with
                inProgress := resolvedPath :: st1.modules.inProgress
                moduleStack := resolvedPath :: st1.modules.moduleStack } }
            let st3 := { st2 with trace := .moduleEvalStarted resolvedPath :: st2.trace }
            match runProgram (evalStmt fuel) st3 moduleEnvId program .vnull with
            | none => none
            | some (st4, .error s) =>
              -- catch: evict any partial result, then the finally
              let st5 := { st4 with modules := { st4.modules with
                  resultCache := alistRemove st4.modules.resultCache resolvedPath } }
              some (finallyModule st5 resolvedPath, .error s)
            | some (st4, .ok _) =>
              let namespaceVal := buildNamespaceValue st4.frames moduleEnvId
              let st5 := { st4 with modules := { st4.modules with
                  resultCache := alistSet st4.modules.resultCache resolvedPath namespaceVal } }
              match applyImportBindings st5.frames envId namespaceVal nsBinding namedImports defaultBinding with
              | .error s =>
                let st6 := { st5 with modules := { st5.modules with
                    resultCache := alistRemove st5.modules.resultCache resolvedPath } }
                some (finallyModule st6 resolvedPath, .error s)
              | .ok frames1 =>
                some (finallyModule { st5 with frames := frames1 } resolvedPath,
                  .ok namespaceVal)
    | .exportSpecifiers specifiers =>
      match exportSpecLoop st.frames envId specifiers with
      | .error s => some (st, .error s)
      | .ok frames1 => some ({ st with frames := frames1 }, .ok .vnull)
    | .exportDefaultExpr e =>
      match evalExpr fuel st.frames envId e with
      | none => none
      | some (f1, .error s) => some ({ st with frames := f1 }, .error s)
      | some (f1, .ok v) =>
        match setModuleExport f1 envId "default" v with
        | .error s => some ({ st with frames := f1 }, .error s)
        | .ok frames2 => some ({ st with frames := frames2 }, .ok v)
    | .databaseStmt identifier initializer =>
      -- eval_database_statement
      match evalExpr fuel st.frames envId initializer with
      | none => none
      | some (f1, .error s) => some ({ st with frames := f1 }, .error s)
      | some (f1, .ok handle) =>
        let st1 := { st with frames := f1 }
        if !isMongoDatabase handle then
          some (st1, .error (.err "database expects a Mongo database handle. Use connect(uri, dbName) to obtain one."))
        else
          let frames2 :=
            match st1.mongo.databaseBinding with
            | some prev =>
              if hasBinding st1.frames envId prev then removeVar st1.frames envId prev
              else st1.frames
            | none => st1.frames
          let (bindings, mongo1) := consumeCollectionBindings st1.mongo
          let frames3 := bindings.foldl (fun fs b => removeVar fs envId b) frames2
          let mongo2 := clearDatabaseBinding mongo1
          let frames4 :=
            if hasBinding frames3 envId identifier then removeVar frames3 envId identifier
            else frames3
          match declareVar frames4 envId identifier handle true with
          | .error s => some ({ st1 with frames := frames4, mongo := mongo2 }, .error s)
          | .ok frames5 =>
            some ({ st1 with
                frames := frames5
                mongo := registerDatabaseBinding mongo2 identifier },
              .ok handle)
    | .collectionStmt bindingName sourceExpr =>
      -- eval_collection_statement
      match sourceExpr with
      | some srcE =>
        match evalExpr fuel st.frames envId srcE with
        | none => none
        | some (f1, .error s) => some ({ st with frames := f1 }, .error s)
        | some (f1, .ok source) =>
          let st1 := { st with frames := f1 }
          if isMongoCollection source then
            finishCollection st1 envId bindingName source
          else
            match source with
            | .vstr name =>
              match st1.mongo.databaseBinding with
              | none =>
                some (st1, .error (.err "collection requires an active database before mapping to a collection name."))
              | some dbBinding =>
                if !hasBinding st1.frames envId dbBinding then
                  some (st1, .error (.err "The active database binding is no longer available."))
                else
                  match lookupVar st1.frames envId dbBinding with
                  | .error s => some (st1, .error s)
                  | .ok dbValue =>
                    if !isMongoDatabase dbValue then
                      some (st1, .error (.err "The active database binding is no longer valid."))
                    else
                      match createCollectionFromDatabase st1 dbValue name with
                      | (st2, .error s) => some (st2, .error s)
                      | (st2, .ok value) => finishCollection st2 envId bindingName value
            | _ =>
              if isMongoDatabase source then
                match createCollectionFromDatabase st1 source bindingName with
                | (st2, .error s) => some (st2, .error s)
                | (st2, .ok value) => finishCollection st2 envId bindingName value
              else
                some (st1, .error (.err "collection initializer must evaluate to a Mongo collection, database, or string."))
      | none =>
        match st.mongo.databaseBinding with
        | none =>
          some (st, .error (.err "collection requires an active database. Use 'database connect(...)' first."))
        | some dbBinding =>
          if !hasBinding st.frames envId dbBinding then
            some (st, .error (.err "The active database binding is no longer available."))
          else
            match lookupVar st.frames envId dbBinding with
            | .error s => some (st, .error s)
            | .ok dbValue =>
              if !isMongoDatabase dbValue then
                some (st, .error (.err "The active database binding is no longer valid."))
              else
                match createCollectionFromDatabase st dbValue bindingName with
                | (st2, .error s) => some (st2, .error s)
                | (st2, .ok value) => finishCollection st2 envId bindingName value
    | .usingStmt uriE dbE aliasName optsE body =>
      -- eval_using_statement
      match evalExpr fuel st.frames envId uriE with
      | none => none
      | some (f1, .error s) => some ({ st with frames := f1 }, .error s)
      | some (f1, .ok uriV) =>
        let st1 := { st with frames := f1 }
        match uriV with
        | .vstr uriRaw =>
          let uri := trimStr uriRaw
          if uri.length = 0 then
            some (st1, .error (.err "Mongo connection URI cannot be empty."))
          else
            match evalUsingDbName fuel st1 envId dbE with
            | none => none
            | some (st2, .error s) => some (st2, .error s)
            | some (st2, .ok dbName) =>
              match evalUsingOptions fuel st2 envId optsE with
              | none => none
              | some (st3, .error s) => some (st3, .error s)
              | some (st3, .ok collectionDefaultsConfig) =>
                -- snapshot, then clear the process-wide registry
                let snapshot := captureMongoState st3.mongo
                let mongo1 := clearDatabaseBinding st3.mongo
                let (_, mongo2) := consumeCollectionBindings mongo1
                let st4 := { st3 with mongo := mongo2 }
                let aliasN := aliasName.getD "db"
                let scopedEnvId := st4.frames.length
                let st5 := { st4 with frames := st4.frames ++ [⟨[], [], some envId, none⟩] }
                match connectMongo st5 uri dbName with
                | (st6, .error s) => some (st6, .error s)
                | (st6, .ok databaseValue) =>
                  let frames1 :=
                    if hasBinding st6.frames scopedEnvId aliasN then
                      removeVar st6.frames scopedEnvId aliasN
                    else st6.frames
                  match declareVar frames1 scopedEnvId aliasN databaseValue true with
                  | .error s => some ({ st6 with frames := frames1 }, .error s)
                  | .ok frames2 =>
                    let st7 := { st6 with
                      frames := frames2
                      mongo := registerDatabaseBinding st6.mongo aliasN }
                    match setupUsingCollections st7 scopedEnvId databaseValue
                        (collectionDefaultsConfig.getD []) with
                    | (st8, .error s) => some (st8, .error s)
                    | (st8, .ok _) =>
                      let dbId := match databaseValue with | .vdb i => i | _ => 0
                      match runSeq (evalStmt fuel) st8 scopedEnvId body with
                      | none => none
                      | some (st9, r) => some (usingCleanup st9 dbId snapshot, r)
        | _ =>
          some (st1, .error (.err "using mongo expects the URI expression to evaluate to a string."))
termination_by structural fuel => fuel

/-- The block evaluator at a given fuel (`evaluateBlock` with `evaluate`
fixed to `evalStmt fuel`). -/
def evalSeq (fuel : Nat) : St → Nat → List Stmt → Option (St × Except Sig Val) :=
  runSeq (evalStmt fuel)

/-! ## Schemas, instances and method binding (runtime/eval/expressions.ts
lines 627–907) -/

structure TypeAnn where
  base : String
  arrayDepth : Nat
deriving Repr

structure MParam where
  name : String
  typeAnnotation : Option TypeAnn
  defaultValue : Option Expr
deriving Repr

structure MField where
  name : String
  typeAnnotation : Option TypeAnn
  required : Bool
  initializer : Option Expr
deriving Repr

structure MMethod where
  name : String
  parameters : List MParam
  body : List Stmt
deriving Repr

structure MClass where
  name : String
  fields : List MField
  methods : List MMethod
  declEnvId : Nat
deriving Repr

/-- A schema instance: the `ObjectVal` tagged with the schema name; only
its property map evolves. -/
structure Instance where
  props : List (String × Val)
deriving Repr

/-- The `schemaName` a value carries (database/collection handles are
tagged `ObjectVal`s in the source). -/
def valSchemaName : Val → Option String
  | .vobj _ sn => sn
  | .vdb _ => some "MongoDatabase"
  | .vcoll _ => some "MongoCollection"
  | _ => none

/-- `matchesTypeAnnotation` (expressions.ts lines 821–866), by recursion on
the array depth. -/
def matchesTypeAnnDepth : Nat → String → Val → Bool
  | d + 1, base, v =>
    match v with
    | .varr elems => elems.all (matchesTypeAnnDepth d base)
    | _ => false
  | 0, base, v =>
    match base.toLower with
    | "any" => true
    | "string" => valTypeName v = "string"
    | "number" => valTypeName v = "number"
    | "boolean" => valTypeName v = "boolean"
    | "null" => valTypeName v = "null"
    | "array" => valTypeName v = "array"
    | "object" => valTypeName v = "object"
    | expected =>
      if valTypeName v ≠ "object" then false
      else ((valSchemaName v).getD "").toLower = expected

def matchesTypeAnnotation (ann : TypeAnn) (v : Val) : Bool :=
  matchesTypeAnnDepth ann.arrayDepth ann.base v

/-- `formatTypeAnnotation` (expressions.ts lines 868–873). -/
def formatTypeAnnotation (ann : TypeAnn) : String :=
  ann.base ++ String.join (List.replicate ann.arrayDepth "[]")

/-- `describeRuntimeType` (expressions.ts lines 875–882). -/
def describeRuntimeType (v : Val) : String :=
  if valTypeName v = "object" then (valSchemaName v).getD "object"
  else valTypeName v

/-- `validateSchemaFieldType` (expressions.ts lines 794–819); `some` is the
thrown error. -/
def validateSchemaFieldType (schemaName : String) (field : MField)
    (value : Val) : Option Sig :=
  match field.typeAnnotation with
  | none => none
  | some ann =>
    if ann.base.toLower = "any" ∧ ann.arrayDepth = 0 then none
    else if !field.required ∧ valTypeName value = "null" then none
    else if matchesTypeAnnotation ann value then none
    else
      some (.err ("Field '" ++ schemaName ++ "." ++ field.name ++
        "' expects type '" ++ formatTypeAnnotation ann ++ "' but received '" ++
        describeRuntimeType value ++ "'."))

def pluralS (n : Nat) : String := if n = 1 then "" else "s"

/-- The field-local declaration loop of `bindMethod` (lines 728–732):
each field becomes a local initialized to the instance's current value. -/
def declareFieldLocals (frames : Frames) (envId : Nat) (inst : Instance) :
    List MField → Except Sig Frames
  | [] => .ok frames
  | f :: rest =>
    let current := (alistGet inst.props f.name).getD .vnull
    match declareVar frames envId f.name current false with
    | .error s => .error s
    | .ok f1 => declareFieldLocals f1 envId inst rest

/-- The parameter-binding loop of `bindMethod` (lines 734–760): positional
arguments, defaults evaluated in the method environment, annotation checks,
and assignment into the field local when a parameter shadows a field. -/
def bindMethodParams : Nat → Frames → Nat → MClass → MMethod → List MParam →
    List Val → Option (Frames × Option Sig)
  | 0, _, _, _, _, _, _ => none
  | _ + 1, frames, _, _, _, [], _ => some (frames, none)
  | fuel + 1, frames, envId, classVal, method, p :: ps, args =>
    let step := fun (frames : Frames) (argument : Val) (restArgs : List Val) =>
      if p.typeAnnotation.isSome ∧
          ! matchesTypeAnnotation (p.typeAnnotation.getD ⟨"any", 0⟩) argument then
        some (frames, some (.err ("Method '" ++ classVal.name ++ "." ++ method.name ++
          "' expects parameter '" ++ p.name ++ "' to be '" ++
          formatTypeAnnotation (p.typeAnnotation.getD ⟨"any", 0⟩) ++
          "' but received '" ++ describeRuntimeType argument ++ "'.")))
      else if classVal.fields.any (·.name = p.name) then
        match assignVar frames envId p.name argument with
        | .error s => some (frames, some s)
        | .ok f1 => bindMethodParams fuel f1 envId classVal method ps restArgs
      else
        match declareVar frames envId p.name argument false with
        | .error s => some (frames, some s)
        | .ok f1 => bindMethodParams fuel f1 envId classVal method ps restArgs
    match args with
    | a :: restArgs => step frames a restArgs
    | [] =>
      match p.defaultValue with
      | some dv =>
        match evalExpr fuel frames envId dv with
        | none => none
        | some (f1, .error s) => some (f1, some s)
        | some (f1, .ok v) => step f1 v []
      | none =>
        some (frames, some (.err ("Method '" ++ classVal.name ++ "." ++ method.name ++
          "' missing required argument '" ++ p.name ++ "'.")))

/-- The write-back loop of `bindMethod` (lines 769–773 and 784–788): each
field local is read back, re-type-checked, and committed to the instance;
a failing check aborts with the fields committed so far. -/
def writeBackFields (frames : Frames) (envId : Nat) (schemaName : String) :
    List MField → Instance → Instance × Option Sig
  | [], inst => (inst, none)
  | f :: rest, inst =>
    match lookupVar frames envId f.name with
    | .error e => (inst, some e)
    | .ok updated =>
      match validateSchemaFieldType schemaName f updated with
      | some e => (inst, some e)
      | none =>
        writeBackFields frames envId schemaName rest
          ⟨alistSet inst.props f.name updated⟩

/-- `bindMethod` (expressions.ts lines 711–792): the native thunk attached
to an instance for each schema method.  Mirrors the source's control flow:
the write-back runs after normal completion and after a `Return` signal;
break/continue are misuse errors; every other thrown signal propagates with
the instance untouched. -/
def callMethod (fuel : Nat) (st : St) (classVal : MClass) (method : MMethod)
    (inst : Instance) (args : List Val) :
    Option (St × Instance × Except Sig Val) :=
  if args.length > method.parameters.length then
    some (st, inst, .error (.err ("Method '" ++ classVal.name ++ "." ++ method.name ++
      "' received " ++ toString args.length ++ " argument" ++ pluralS args.length ++
      " but only " ++ toString method.parameters.length ++ " parameter" ++
      pluralS method.parameters.length ++ " are defined.")))
  else
    let methodEnvId := st.frames.length
    let frames0 := st.frames ++ [⟨[], [], some classVal.declEnvId, none⟩]
    match declareVar frames0 methodEnvId "this"
        (.vobj inst.props (some classVal.name)) false with
    | .error s => some ({ st with frames := frames0 }, inst, .error s)
    | .ok frames1 =>
      match declareFieldLocals frames1 methodEnvId inst classVal.fields with
      | .error s => some ({ st with frames := frames1 }, inst, .error s)
      | .ok frames2 =>
        match bindMethodParams fuel frames2 methodEnvId classVal method
            method.parameters args with
        | none => none
        | some (frames3, some s) => some ({ st with frames := frames3 }, inst, .error s)
        | some (frames3, none) =>
          match evalSeq fuel { st with frames := frames3 } methodEnvId method.body with
          | none => none
          | some (st1, .ok _) =>
            match writeBackFields st1.frames methodEnvId classVal.name
                classVal.fields inst with
            | (inst1, none) => some (st1, inst1, .ok .vnull)
            | (inst1, some s) => some (st1, inst1, .error s)
          | some (st1, .error sig) =>
            match sig with
            | .ret v =>
              match writeBackFields st1.frames methodEnvId classVal.name
                  classVal.fields inst with
              | (inst1, none) => some (st1, inst1, .ok v)
              | (inst1, some s) => some (st1, inst1, .error s)
            | .brk => some (st1, inst, .error (.err "Break statements are only allowed inside loops."))
            | .cont => some (st1, inst, .error (.err "Continue statements are only allowed inside loops."))
            | s => some (st1, inst, .error s)

/-! ## Claim theorems -/

/-- C1 counterexample: contrary to the claim, `query { a == 1, a > 0 }`
does **not** lower to `{ a: { $eq: 1, $gt: 0 } }`.  The equality stores a
bare scalar, and the later comparator finds a non-object slot and replaces
it, so the document is `{ a: { $gt: 0 } }` and the equality is lost. -/
theorem c1_eq_then_comparator_loses_eq :
    lowerQuery [⟨"a", .qeq, .pnum 1⟩, ⟨"a", .qgt, .pnum 0⟩]
      = [("a", Plain.pobj [("$gt", Plain.pnum 0)])] ∧
    lowerQuery [⟨"a", .qeq, .pnum 1⟩, ⟨"a", .qgt, .pnum 0⟩]
      ≠ [("a", Plain.pobj [("$eq", Plain.pnum 1), ("$gt", Plain.pnum 0)])] := by
  refine ⟨rfl, ?_⟩
  intro h
  rw [show lowerQuery [⟨"a", .qeq, .pnum 1⟩, ⟨"a", .qgt, .pnum 0⟩]
      = [("a", Plain.pobj [("$gt", Plain.pnum 0)])] from rfl] at h
  simp at h

/-- C1 (amended): the `$eq` merge happens when the equality arrives on a
field that **already** carries a compound comparator object: in general,
`==` on a slot holding a comparator object stores the value under `$eq`
inside it; concretely `query { a > 0, a == 1 }` lowers to
`{ a: { $gt: 0, $eq: 1 } }` and `query { a > 0, a == 1, b != 2 }` lowers to
`{ a: { $gt: 0, $eq: 1 }, b: { $ne: 2 } }`, whereas with the equality
first, `query { a == 1, a > 0 }` lowers to `{ a: { $gt: 0 } }` — the later
comparator replaces the scalar equality. -/
theorem c1_query_lowering_eq_merge :
    (∀ (q : List (String × Plain)) (k : String) (v : Plain)
        (es : List (String × Plain)),
      getKey q k = some (.pobj es) →
      applyQueryCondition q k .qeq v = setKey q k (.pobj (setKey es "$eq" v))) ∧
    lowerQuery [⟨"a", .qgt, .pnum 0⟩, ⟨"a", .qeq, .pnum 1⟩]
      = [("a", Plain.pobj [("$gt", Plain.pnum 0), ("$eq", Plain.pnum 1)])] ∧
    lowerQuery [⟨"a", .qgt, .pnum 0⟩, ⟨"a", .qeq, .pnum 1⟩, ⟨"b", .qne, .pnum 2⟩]
      = [("a", Plain.pobj [("$gt", Plain.pnum 0), ("$eq", Plain.pnum 1)]),
         ("b", Plain.pobj [("$ne", Plain.pnum 2)])] ∧
    lowerQuery [⟨"a", .qeq, .pnum 1⟩, ⟨"a", .qgt, .pnum 0⟩]
      = [("a", Plain.pobj [("$gt", Plain.pnum 0)])] := by
  refine ⟨?_, rfl, rfl, rfl⟩
  intro q k v es h
  simp [applyQueryCondition, setEqualityCondition, h]

theorem c1_query_lowering_eq_merge_witness :
    getKey [("a", Plain.pobj [("$gt", Plain.pnum 0)])] "a"
      = some (.pobj [("$gt", Plain.pnum 0)]) ∧
    applyQueryCondition [("a", Plain.pobj [("$gt", Plain.pnum 0)])] "a" .qeq (.pnum 1)
      = setKey [("a", Plain.pobj [("$gt", Plain.pnum 0)])] "a"
          (.pobj (setKey [("$gt", Plain.pnum 0)] "$eq" (.pnum 1))) :=
  ⟨rfl, c1_query_lowering_eq_merge.1 [("a", Plain.pobj [("$gt", Plain.pnum 0)])]
    "a" (.pnum 1) [("$gt", Plain.pnum 0)] rfl⟩

/-- C5: `deepClone` does **not** terminate on every cyclic value.  On an
array that contains itself the recursion never finishes for any fuel: the
array copy is registered in the visited map only after its elements are
cloned, so the recursive element clone never hits the visited map.  (The
spec requires the identity-keyed visited map to make cycles terminate; the
object branch registers before recursing, the array branch after — the
array branch is the slip.) -/
theorem c5_deepClone_self_array_diverges :
    ∀ fuel, nativeDeepClone fuel selfArrayHeap (.href 0) = none :=
  fun fuel => selfArray_clone_none fuel

/-- C8 counterexample: lexing `1.` (a numeric literal followed by a dot
with no digit after it) is **not** a fatal error: the number loop breaks at
the stray dot ("treat stray dot as member access"), emitting `Number "1"`
and a `Dot` token. -/
theorem c8_trailing_dot_not_fatal :
    tokenize "1." = some (.ok [⟨"1", .number⟩, ⟨".", .dot⟩, ⟨"EndOfFile", .eof⟩]) ∧
    ∀ msg, tokenize "1." ≠ some (.error msg) := by
  refine ⟨rfl, ?_⟩
  intro msg h
  rw [show tokenize "1."
      = some (.ok [⟨"1", .number⟩, ⟨".", .dot⟩, ⟨"EndOfFile", .eof⟩]) from rfl] at h
  simp at h

/-- C8 (amended): a `.` immediately after a numeric literal and not
followed by a digit is member access, never a fatal error: (i) anywhere in
any source, the lexer turns a digit run followed by `.` and a non-digit (or
the end of input) into a `Number` token and a separate `Dot` token, and
continues with the rest of the source; (ii) no input whatsoever makes the
lexer return the `missing digits after decimal point` fatal (the number
loop only consumes a dot when a digit follows, so a scanned literal never
ends in `.`); (iii) in particular a source of digits with a final stray dot
lexes completely. -/
theorem c8_stray_dot_member_access :
    (∀ (fuel : Nat) (ds rest : List Char) (tokens : List Token),
      ds ≠ [] → (∀ c ∈ ds, isInt c = true) →
      (rest.head?.map isInt).getD false = false →
      tokenizeLoop (fuel + 2) (ds ++ '.' :: rest) tokens
        = tokenizeLoop fuel rest
            (tokens ++ [⟨String.mk ds, .number⟩, ⟨".", .dot⟩])) ∧
    (∀ (fuel : Nat) (src : List Char) (tokens : List Token),
      tokenizeLoop fuel src tokens
        ≠ some (.error "Invalid numeric literal: missing digits after decimal point.")) ∧
    (∀ ds : List Char, ds ≠ [] → (∀ c ∈ ds, isInt c = true) →
      tokenize (String.mk (ds ++ ['.']))
        = some (.ok [⟨String.mk ds, .number⟩, ⟨".", .dot⟩, ⟨"EndOfFile", .eof⟩])) :=
  ⟨fun fuel ds rest tokens hne h hrest =>
      tokenizeLoop_number_dot fuel ds hne h rest hrest tokens,
    tokenizeLoop_no_missing_digits,
    fun ds hne h => tokenize_digits_trailing_dot ds hne h⟩

theorem c8_stray_dot_member_access_witness :
    tokenizeLoop (1 + 2) (['4', '2'] ++ '.' :: ['x']) []
      = tokenizeLoop 1 ['x']
          ([] ++ [⟨String.mk ['4', '2'], .number⟩, ⟨".", .dot⟩]) :=
  c8_stray_dot_member_access.1 1 ['4', '2'] ['x'] []
    (by decide) (by decide) (by decide)

/-- C7: a binary `&&`/`||` always yields a Boolean (never an operand);
`&&` short-circuits to `false` when the left operand is falsy (the right
operand's evaluation does not happen: the result is independent of it and
of any effect it would have), `||` short-circuits to `true` when the left
operand is truthy; otherwise the result is the Boolean coercion of the
right operand's truthiness. -/
theorem c7_logical_ops_boolean_and_shortcircuit
    (fuel : Nat) (frames : Frames) (envId : Nat) (e1 e2 : Expr) :
    (∀ frames' v, evalExpr (fuel + 1) frames envId (.binary "&&" e1 e2)
        = some (frames', .ok v) → ∃ b, v = .vbool b) ∧
    (∀ frames' v, evalExpr (fuel + 1) frames envId (.binary "||" e1 e2)
        = some (frames', .ok v) → ∃ b, v = .vbool b) ∧
    (∀ f1 v1, evalExpr fuel frames envId e1 = some (f1, .ok v1) →
      isTruthy v1 = false →
      evalExpr (fuel + 1) frames envId (.binary "&&" e1 e2)
        = some (f1, .ok (.vbool false))) ∧
    (∀ f1 v1 f2 v2, evalExpr fuel frames envId e1 = some (f1, .ok v1) →
      isTruthy v1 = true →
      evalExpr fuel f1 envId e2 = some (f2, .ok v2) →
      evalExpr (fuel + 1) frames envId (.binary "&&" e1 e2)
        = some (f2, .ok (.vbool (isTruthy v2)))) ∧
    (∀ f1 v1, evalExpr fuel frames envId e1 = some (f1, .ok v1) →
      isTruthy v1 = true →
      evalExpr (fuel + 1) frames envId (.binary "||" e1 e2)
        = some (f1, .ok (.vbool true))) ∧
    (∀ f1 v1 f2 v2, evalExpr fuel frames envId e1 = some (f1, .ok v1) →
      isTruthy v1 = false →
      evalExpr fuel f1 envId e2 = some (f2, .ok v2) →
      evalExpr (fuel + 1) frames envId (.binary "||" e1 e2)
        = some (f2, .ok (.vbool (isTruthy v2)))) := by
  refine ⟨?_, ?_, ?_, ?_, ?_, ?_⟩
  · intro frames' v h
    simp only [evalExpr] at h
    cases h1 : evalExpr fuel frames envId e1 with
    | none => simp [h1] at h
    | some p1 =>
      obtain ⟨fa, ra⟩ := p1
      cases ra with
      | error s => simp [h1] at h
      | ok l =>
        simp only [h1] at h
        by_cases ht : isTruthy l
        · simp only [ht, if_true] at h
          cases h2 : evalExpr fuel fa envId e2 with
          | none => simp [h2] at h
          | some p2 =>
            obtain ⟨fb, rb⟩ := p2
            cases rb with
            | error s => simp [h2] at h
            | ok r =>
              simp [h2] at h
              exact ⟨isTruthy r, h.2.symm⟩
        · simp only [ht, if_false] at h
          simp at h
          exact ⟨false, h.2.symm⟩
  · intro frames' v h
    simp only [evalExpr] at h
    cases h1 : evalExpr fuel frames envId e1 with
    | none => simp [h1] at h
    | some p1 =>
      obtain ⟨fa, ra⟩ := p1
      cases ra with
      | error s => simp [h1] at h
      | ok l =>
        simp only [h1] at h
        by_cases ht : isTruthy l
        · simp only [ht, if_true] at h
          simp at h
          exact ⟨true, h.2.symm⟩
        · simp only [ht, if_false] at h
          cases h2 : evalExpr fuel fa envId e2 with
          | none => simp [h2] at h
          | some p2 =>
            obtain ⟨fb, rb⟩ := p2
            cases rb with
            | error s => simp [h2] at h
            | ok r =>
              simp [h2] at h
              exact ⟨isTruthy r, h.2.symm⟩
  · intro f1 v1 h1 ht
    simp [evalExpr, h1, ht]
  · intro f1 v1 f2 v2 h1 ht h2
    simp [evalExpr, h1, ht, h2]
  · intro f1 v1 h1 ht
    simp [evalExpr, h1, ht]
  · intro f1 v1 f2 v2 h1 ht h2
    simp [evalExpr, h1, ht, h2]

theorem c7_logical_ops_witness :
    evalExpr 2 [⟨[], [], none, none⟩] 0 (.binary "&&" (.num 0) (.ident "zzz"))
      = some ([⟨[], [], none, none⟩], .ok (.vbool false)) :=
  (c7_logical_ops_boolean_and_shortcircuit 1 [⟨[], [], none, none⟩] 0
    (.num 0) (.ident "zzz")).2.2.1 [⟨[], [], none, none⟩] (.vnum 0)
    (by rfl) (by decide)

theorem concat_getElem_len {α : Type} (l : List α) (a : α) :
    (l ++ [a])[l.length]? = some a := by
  induction l with
  | nil => rfl
  | cons x xs ih => simp [ih]

theorem concat_set_len {α : Type} (l : List α) (a b : α) :
    (l ++ [a]).set l.length b = l ++ [b] := by
  induction l with
  | nil => rfl
  | cons x xs ih => simp [List.set, ih]

/-- Hand-stated equation of the `tryCatch` case of `evalStmt` (holds by
`rfl`; spelled out once so later proofs can rewrite with it cheaply). -/
theorem evalStmt_tryCatch_eq (fuel : Nat) (st : St) (envId : Nat)
    (tb : List Stmt) (cc : Option (Option String × List Stmt)) :
    evalStmt (fuel + 1) st envId (.tryCatch tb cc) =
      match runSeq (evalStmt fuel) st envId tb with
      | none => none
      | some (st1, .ok v) => some (st1, .ok v)
      | some (st1, .error sig) =>
        match sig with
        | .ret v => some (st1, .error (.ret v))
        | .brk => some (st1, .error .brk)
        | .cont => some (st1, .error .cont)
        | .fatal s => some (st1, .error (.fatal s))
        | _ =>
          match cc with
          | none => some (st1, .error sig)
          | some (param, catchBody) =>
            let value := convertErrorToRuntimeVal sig
            let catchEnvId := st1.frames.length
            let frames1 := st1.frames ++ [⟨[], [], some envId, none⟩]
            match param with
            | some p =>
              match declareVar frames1 catchEnvId p value false with
              | .ok frames2 =>
                runSeq (evalStmt fuel) { st1 with frames := frames2 } catchEnvId catchBody
              | .error s => some ({ st1 with frames := frames1 }, .error s)
            | none =>
              runSeq (evalStmt fuel) { st1 with frames := frames1 } catchEnvId catchBody
      := by rfl

/-- C2 counterexample: an unknown-name lookup error is **not** fatal when a
`try/catch` encloses it.  `try { x; } catch (e) { e }` completes normally:
scope errors are thrown strings, caught by `eval_try_catch_statement` and
converted to the message string for the catch binding. -/
theorem c2_scope_error_is_catchable :
    (evalStmt 9 ⟨[⟨[], [], none, none⟩], ⟨[], [], none, [], []⟩,
        ⟨[], [], [], [], "/w"⟩, []⟩ 0
      (.tryCatch [.exprStmt (.ident "x")]
        (some (some "e", [.exprStmt (.ident "e")])))).map Prod.snd
      = some (.ok (.vstr "Unable to resolve 'x'. Check for typos or ensure it is declared before use.")) := by
  rfl

/-- C2 (amended): `try/catch` catches runtime exceptions **and** thrown
evaluation errors — scope/binding and type/contract violations are thrown
strings, caught with the catch parameter bound to the message string
(`convertErrorToRuntimeVal`).  Control-flow signals are rethrown past the
catch, and only the process-terminating fatal exits (`Deno.exit` paths such
as division by zero) cannot be intercepted by user code. -/
theorem c2_try_catch_catches_thrown_errors
    (fuel : Nat) (st : St) (envId : Nat) (tryBlock : List Stmt)
    (p : String) (catchBody : List Stmt) (st1 : St) :
    (∀ v, evalSeq fuel st envId tryBlock = some (st1, .error (.exc v)) →
      evalStmt (fuel + 1) st envId (.tryCatch tryBlock (some (some p, catchBody)))
        = evalSeq fuel { st1 with frames := st1.frames ++
            [⟨[(p, v)], [], some envId, none⟩] } st1.frames.length catchBody) ∧
    (∀ s, evalSeq fuel st envId tryBlock = some (st1, .error (.err s)) →
      evalStmt (fuel + 1) st envId (.tryCatch tryBlock (some (some p, catchBody)))
        = evalSeq fuel { st1 with frames := st1.frames ++
            [⟨[(p, .vstr s)], [], some envId, none⟩] } st1.frames.length catchBody) ∧
    (∀ v, evalSeq fuel st envId tryBlock = some (st1, .error (.ret v)) →
      evalStmt (fuel + 1) st envId (.tryCatch tryBlock (some (some p, catchBody)))
        = some (st1, .error (.ret v))) ∧
    (evalSeq fuel st envId tryBlock = some (st1, .error .brk) →
      evalStmt (fuel + 1) st envId (.tryCatch tryBlock (some (some p, catchBody)))
        = some (st1, .error .brk)) ∧
    (evalSeq fuel st envId tryBlock = some (st1, .error .cont) →
      evalStmt (fuel + 1) st envId (.tryCatch tryBlock (some (some p, catchBody)))
        = some (st1, .error .cont)) ∧
    (∀ s, evalSeq fuel st envId tryBlock = some (st1, .error (.fatal s)) →
      evalStmt (fuel + 1) st envId (.tryCatch tryBlock (some (some p, catchBody)))
        = some (st1, .error (.fatal s))) := by
  have hframes : ∀ value : Val,
      declareVar (st1.frames ++ [⟨[], [], some envId, none⟩]) st1.frames.length
        p value false
      = .ok (st1.frames ++ [⟨[(p, value)], [], some envId, none⟩]) := by
    intro value
    simp [declareVar, concat_getElem_len, concat_set_len, alistGet, alistSet]
  refine ⟨?_, ?_, ?_, ?_, ?_, ?_⟩
  · intro v h
    have hrs : runSeq (evalStmt fuel) st envId tryBlock
        = some (st1, .error (.exc v)) := h
    rw [evalStmt_tryCatch_eq, hrs]
    simp [convertErrorToRuntimeVal, hframes, evalSeq]
  · intro s h
    have hrs : runSeq (evalStmt fuel) st envId tryBlock
        = some (st1, .error (.err s)) := h
    rw [evalStmt_tryCatch_eq, hrs]
    simp [convertErrorToRuntimeVal, hframes, evalSeq]
  · intro v h
    have hrs : runSeq (evalStmt fuel) st envId tryBlock
        = some (st1, .error (.ret v)) := h
    rw [evalStmt_tryCatch_eq, hrs]
  · intro h
    have hrs : runSeq (evalStmt fuel) st envId tryBlock
        = some (st1, .error .brk) := h
    rw [evalStmt_tryCatch_eq, hrs]
  · intro h
    have hrs : runSeq (evalStmt fuel) st envId tryBlock
        = some (st1, .error .cont) := h
    rw [evalStmt_tryCatch_eq, hrs]
  · intro s h
    have hrs : runSeq (evalStmt fuel) st envId tryBlock
        = some (st1, .error (.fatal s)) := h
    rw [evalStmt_tryCatch_eq, hrs]

theorem alistGet_set_same {α : Type} (l : List (String × α)) (k : String) (v : α) :
    alistGet (alistSet l k v) k = some v := by
  induction l with
  | nil => simp [alistGet, alistSet]
  | cons p rest ih =>
    obtain ⟨k', v'⟩ := p
    by_cases hk : k' = k
    · simp [alistGet, alistSet, hk]
    · simp [alistGet, alistSet, hk, ih]

theorem alistGet_set_ne {α : Type} (l : List (String × α)) (k' k : String)
    (v : α) (hk : k' ≠ k) : alistGet (alistSet l k' v) k = alistGet l k := by
  induction l with
  | nil => simp [alistGet, alistSet, hk]
  | cons p rest ih =>
    obtain ⟨k0, v0⟩ := p
    by_cases h0 : k0 = k'
    · subst h0
      simp [alistGet, alistSet, hk]
    · simp [alistGet, alistSet, h0, ih]

theorem resolveEnvGo_error_is_err (steps : Nat) (frames : Frames) (envId : Nat)
    (name : String) (e : Sig) (h : resolveEnvGo steps frames envId name = .error e) :
    ∃ s, e = .err s := by
  induction steps generalizing envId with
  | zero =>
    simp [resolveEnvGo] at h
    exact ⟨_, h.symm⟩
  | succ n ih =>
    simp only [resolveEnvGo] at h
    cases hf : frames[envId]? with
    | none =>
      simp [hf] at h
      exact ⟨_, h.symm⟩
    | some f =>
      simp only [hf] at h
      by_cases hv : (alistGet f.vars name).isSome
      · simp [hv] at h
      · simp only [hv, if_false, Bool.false_eq_true] at h
        cases hp : f.parent with
        | none =>
          simp [hp] at h
          exact ⟨_, h.symm⟩
        | some p =>
          simp only [hp] at h
          by_cases hlt : p < envId
          · simp only [hlt, if_true] at h
            exact ih p h
          · simp [hlt] at h
            exact ⟨_, h.symm⟩

theorem lookupVar_error_is_err (frames : Frames) (envId : Nat) (name : String)
    (e : Sig) (h : lookupVar frames envId name = .error e) : ∃ s, e = .err s := by
  simp only [lookupVar] at h
  cases hr : resolveEnv frames envId name with
  | error e' =>
    simp only [hr] at h
    cases h
    exact resolveEnvGo_error_is_err _ frames envId name e hr
  | ok i =>
    simp only [hr] at h
    cases hf : frames[i]? with
    | none =>
      simp [hf] at h
      exact ⟨_, h.symm⟩
    | some f =>
      simp only [hf] at h
      cases hg : alistGet f.vars name with
      | none =>
        simp [hg] at h
        exact ⟨_, h.symm⟩
      | some v => simp [hg] at h

theorem validate_error_is_err (schemaName : String) (field : MField) (value : Val)
    (e : Sig) (h : validateSchemaFieldType schemaName field value = some e) :
    ∃ s, e = .err s := by
  simp only [validateSchemaFieldType] at h
  split at h
  · simp at h
  · split at h
    · simp at h
    · split at h
      · simp at h
      · split at h
        · simp at h
        · exact ⟨_, (Option.some.inj h).symm⟩

/-- Write-back leaves keys outside the written field set untouched. -/
theorem writeBackFields_preserves (frames : Frames) (envId : Nat) (cn : String)
    (fields : List MField) (inst inst' : Instance)
    (h : writeBackFields frames envId cn fields inst = (inst', none)) :
    ∀ k, k ∉ fields.map (·.name) →
      alistGet inst'.props k = alistGet inst.props k := by
  induction fields generalizing inst with
  | nil =>
    intro k _
    simp only [writeBackFields] at h
    cases h
    rfl
  | cons f0 rest ih =>
    intro k hk
    simp only [List.map_cons, List.mem_cons, not_or] at hk
    obtain ⟨hk0, hkr⟩ := hk
    simp only [writeBackFields] at h
    cases hlk : lookupVar frames envId f0.name with
    | error e => simp [hlk] at h
    | ok u =>
      simp only [hlk] at h
      cases hval : validateSchemaFieldType cn f0 u with
      | some e => simp [hval] at h
      | none =>
        simp only [hval] at h
        rw [ih _ h k hkr]
        exact alistGet_set_ne inst.props f0.name k u (fun he => hk0 he.symm)

/-- A successful write-back commits exactly the field locals (looked up in
the method environment at exit), each re-validated. -/
theorem writeBackFields_ok (frames : Frames) (envId : Nat) (cn : String)
    (fields : List MField) (inst inst' : Instance)
    (h : writeBackFields frames envId cn fields inst = (inst', none)) :
    ∀ f ∈ fields, ∃ u,
      lookupVar frames envId f.name = .ok u ∧
      validateSchemaFieldType cn f u = none ∧
      alistGet inst'.props f.name = some u := by
  induction fields generalizing inst with
  | nil => intro f hf; cases hf
  | cons f0 rest ih =>
    intro f hf
    simp only [writeBackFields] at h
    cases hlk : lookupVar frames envId f0.name with
    | error e => simp [hlk] at h
    | ok u =>
      simp only [hlk] at h
      cases hval : validateSchemaFieldType cn f0 u with
      | some e => simp [hval] at h
      | none =>
        simp only [hval] at h
        rcases List.mem_cons.mp hf with rfl | hfr
        · by_cases hdup : f.name ∈ rest.map (·.name)
          · obtain ⟨f', hf', hname⟩ := List.mem_map.mp hdup
            obtain ⟨u', hlk', _, hget'⟩ := ih _ h f' hf'
            rw [hname] at hlk'
            rw [hlk] at hlk'
            cases hlk'
            exact ⟨u, hlk, hval, by rw [← hname]; exact hget'⟩
          · have hpres := writeBackFields_preserves frames envId cn rest _ inst' h
              f.name hdup
            exact ⟨u, hlk, hval, by
              rw [hpres]
              exact alistGet_set_same inst.props f.name u⟩
        · exact ih _ h f hfr

/-- A failing write-back fails with a thrown string (`err`), never with a
runtime exception. -/
theorem writeBackFields_error_is_err (frames : Frames) (envId : Nat) (cn : String)
    (fields : List MField) (inst inst' : Instance) (e : Sig)
    (h : writeBackFields frames envId cn fields inst = (inst', some e)) :
    ∃ s, e = .err s := by
  induction fields generalizing inst with
  | nil => simp [writeBackFields] at h
  | cons f0 rest ih =>
    simp only [writeBackFields] at h
    cases hlk : lookupVar frames envId f0.name with
    | error e' =>
      simp only [hlk] at h
      cases h
      exact lookupVar_error_is_err frames envId f0.name _ hlk
    | ok u =>
      simp only [hlk] at h
      cases hval : validateSchemaFieldType cn f0 u with
      | some e' =>
        simp only [hval] at h
        cases h
        exact validate_error_is_err cn f0 u _ hval
      | none =>
        simp only [hval] at h
        exact ih _ h

/-- C3: if a schema method invocation completes normally or via `return`
(the call yields a value rather than an error), then every field of the
receiver instance equals the value of the method's corresponding
field-local variable at the method's exit (looked up in the method
environment, allocated at index `st.frames.length`), and that value passed
the field's re-type-check. -/
theorem c3_method_field_writeback
    (fuel : Nat) (st : St) (classVal : MClass) (method : MMethod)
    (inst : Instance) (args : List Val) (st' : St) (inst' : Instance) (v : Val)
    (h : callMethod fuel st classVal method inst args = some (st', inst', .ok v)) :
    ∀ f ∈ classVal.fields, ∃ u,
      lookupVar st'.frames st.frames.length f.name = .ok u ∧
      validateSchemaFieldType classVal.name f u = none ∧
      alistGet inst'.props f.name = some u := by
  simp only [callMethod] at h
  split at h
  · simp at h
  · split at h
    · simp at h
    · split at h
      · simp at h
      · split at h
        · exact absurd h (by simp)
        · simp at h
        · split at h
          · exact absurd h (by simp)
          · split at h
            · rename_i heq
              simp only [Option.some.injEq, Prod.mk.injEq] at h
              obtain ⟨hst, hinst, _⟩ := h
              subst hst
              subst hinst
              exact writeBackFields_ok _ _ _ _ _ _ heq
            · simp at h
          · split at h
            · split at h
              · rename_i heq
                simp only [Option.some.injEq, Prod.mk.injEq] at h
                obtain ⟨hst, hinst, _⟩ := h
                subst hst
                subst hinst
                exact writeBackFields_ok _ _ _ _ _ _ heq
              · simp at h
            · simp at h
            · simp at h
            · simp at h

/-- C9: if a schema method body exits with a thrown runtime exception, no
field write-back occurs: the receiver instance is returned exactly as it
was before the call. -/
theorem c9_method_exception_leaves_instance
    (fuel : Nat) (st : St) (classVal : MClass) (method : MMethod)
    (inst : Instance) (args : List Val) (st' : St) (inst' : Instance) (v : Val)
    (h : callMethod fuel st classVal method inst args
      = some (st', inst', .error (.exc v))) :
    inst' = inst := by
  simp only [callMethod] at h
  split at h
  · simp at h
  · split at h
    · simp only [Option.some.injEq, Prod.mk.injEq] at h
      exact h.2.1.symm
    · split at h
      · simp only [Option.some.injEq, Prod.mk.injEq] at h
        exact h.2.1.symm
      · split at h
        · exact absurd h (by simp)
        · simp only [Option.some.injEq, Prod.mk.injEq] at h
          exact h.2.1.symm
        · split at h
          · exact absurd h (by simp)
          · split at h
            · simp at h
            · rename_i heq
              simp only [Option.some.injEq, Prod.mk.injEq] at h
              obtain ⟨_, _, hsig⟩ := h
              obtain ⟨s, hs⟩ := writeBackFields_error_is_err _ _ _ _ _ _ _ heq
              rw [hs] at hsig
              cases hsig
          · split at h
            · split at h
              · simp at h
              · rename_i heq
                simp only [Option.some.injEq, Prod.mk.injEq] at h
                obtain ⟨_, _, hsig⟩ := h
                obtain ⟨s, hs⟩ := writeBackFields_error_is_err _ _ _ _ _ _ _ heq
                rw [hs] at hsig
                cases hsig
            · simp only [Option.some.injEq, Prod.mk.injEq] at h
              exact h.2.1.symm
            · simp only [Option.some.injEq, Prod.mk.injEq] at h
              exact h.2.1.symm
            · simp only [Option.some.injEq, Prod.mk.injEq] at h
              exact h.2.1.symm

theorem c3_method_field_writeback_witness :
    ∃ u,
      lookupVar [⟨[], [], none, none⟩,
          ⟨[("this", Val.vobj [("x", Val.vnum 1)] (some "C")), ("x", Val.vnum 2)],
            [], some 0, none⟩] 1 "x" = .ok u ∧
      validateSchemaFieldType "C" ⟨"x", none, true, none⟩ u = none ∧
      alistGet [("x", Val.vnum 2)] "x" = some u :=
  c3_method_field_writeback 9
    ⟨[⟨[], [], none, none⟩], ⟨[], [], none, [], []⟩, ⟨[], [], [], [], "/w"⟩, []⟩
    ⟨"C", [⟨"x", none, true, none⟩], [], 0⟩
    ⟨"bump", [],
      [.exprStmt (.assign (.ident "x") (.num 2)),
       .returnStmt (some (.ident "x"))]⟩
    ⟨[("x", .vnum 1)]⟩ []
    ⟨[⟨[], [], none, none⟩,
        ⟨[("this", Val.vobj [("x", Val.vnum 1)] (some "C")), ("x", Val.vnum 2)],
          [], some 0, none⟩],
      ⟨[], [], none, [], []⟩, ⟨[], [], [], [], "/w"⟩, []⟩
    ⟨[("x", Val.vnum 2)]⟩ (.vnum 2) (by rfl)
    ⟨"x", none, true, none⟩ (by simp)

theorem c9_method_exception_witness :
    (⟨[("x", Val.vnum 1)]⟩ : Instance) = ⟨[("x", Val.vnum 1)]⟩ :=
  c9_method_exception_leaves_instance 9
    ⟨[⟨[], [], none, none⟩], ⟨[], [], none, [], []⟩, ⟨[], [], [], [], "/w"⟩, []⟩
    ⟨"C", [⟨"x", none, true, none⟩], [], 0⟩
    ⟨"boom", [], [.throwStmt (.strLit "boom")]⟩
    ⟨[("x", .vnum 1)]⟩ []
    ⟨[⟨[], [], none, none⟩,
        ⟨[("this", Val.vobj [("x", Val.vnum 1)] (some "C")), ("x", Val.vnum 1)],
          [], some 0, none⟩],
      ⟨[], [], none, [], []⟩, ⟨[], [], [], [], "/w"⟩, []⟩
    ⟨[("x", Val.vnum 1)]⟩ (.vstr "boom") (by rfl)

theorem c2_try_catch_witness :
    evalStmt 4 ⟨[⟨[], [], none, none⟩], ⟨[], [], none, [], []⟩,
        ⟨[], [], [], [], "/w"⟩, []⟩ 0
      (.tryCatch [.exprStmt (.ident "nope")] (some (some "e", [.exprStmt (.ident "e")])))
      = evalSeq 3 ⟨[⟨[], [], none, none⟩,
          ⟨[("e", .vstr (unresolvedMsg "nope"))], [], some 0, none⟩],
          ⟨[], [], none, [], []⟩, ⟨[], [], [], [], "/w"⟩, []⟩ 1
          [.exprStmt (.ident "e")] :=
  (c2_try_catch_catches_thrown_errors 3
    ⟨[⟨[], [], none, none⟩], ⟨[], [], none, [], []⟩, ⟨[], [], [], [], "/w"⟩, []⟩
    0 [.exprStmt (.ident "nope")] "e" [.exprStmt (.ident "e")]
    ⟨[⟨[], [], none, none⟩], ⟨[], [], none, [], []⟩, ⟨[], [], [], [], "/w"⟩, []⟩).2.1
    (unresolvedMsg "nope") (by rfl)

theorem alistGet_eq_none_of_not_mem {α : Type} (l : List (String × α)) (k : String)
    (h : k ∉ l.map Prod.fst) : alistGet l k = none := by
  induction l with
  | nil => rfl
  | cons p rest ih =>
    obtain ⟨k', v'⟩ := p
    simp only [List.map_cons, List.mem_cons, not_or] at h
    have hne : k' ≠ k := fun he => h.1 he.symm
    simp [alistGet, hne, ih h.2]

theorem mem_alistSet_keys {α : Type} (l : List (String × α)) (k k' : String)
    (v : α) :
    k' ∈ (alistSet l k v).map Prod.fst ↔ k' ∈ l.map Prod.fst ∨ k' = k := by
  induction l with
  | nil => simp [alistSet]
  | cons p rest ih =>
    obtain ⟨k0, v0⟩ := p
    by_cases h0 : k0 = k
    · subst h0
      simp [alistSet]
      tauto
    · simp [alistSet, h0, ih]
      tauto

theorem alistSet_keys_nodup {α : Type} (l : List (String × α)) (k : String)
    (v : α) (h : (l.map Prod.fst).Nodup) :
    ((alistSet l k v).map Prod.fst).Nodup := by
  induction l with
  | nil => simp [alistSet]
  | cons p rest ih =>
    obtain ⟨k0, v0⟩ := p
    simp only [List.map_cons, List.nodup_cons] at h
    by_cases h0 : k0 = k
    · subst h0
      have hset : alistSet ((k0, v0) :: rest) k0 v = (k0, v) :: rest := by
        simp [alistSet]
      rw [hset]
      simp only [List.map_cons, List.nodup_cons]
      exact h
    · simp only [alistSet, if_neg h0, List.map_cons, List.nodup_cons]
      refine ⟨?_, ih h.2⟩
      intro hmem
      rcases (mem_alistSet_keys rest k k0 v).mp hmem with hin | heq
      · exact h.1 hin
      · exact h0 heq

theorem alistRemove_keys_sublist {α : Type} (l : List (String × α)) (k : String) :
    ((alistRemove l k).map Prod.fst).Sublist (l.map Prod.fst) := by
  induction l with
  | nil => simp [alistRemove]
  | cons p rest ih =>
    obtain ⟨k0, v0⟩ := p
    by_cases h0 : k0 = k
    · simp only [alistRemove, if_pos h0, List.map_cons]
      exact List.sublist_cons_self k0 (rest.map Prod.fst)
    · simp only [alistRemove, if_neg h0, List.map_cons]
      exact ih.cons₂ k0

theorem alistGet_remove_same {α : Type} (l : List (String × α)) (k : String)
    (h : (l.map Prod.fst).Nodup) : alistGet (alistRemove l k) k = none := by
  induction l with
  | nil => rfl
  | cons p rest ih =>
    obtain ⟨k0, v0⟩ := p
    simp only [List.map_cons, List.nodup_cons] at h
    by_cases h0 : k0 = k
    · subst h0
      simp only [alistRemove, if_pos rfl]
      exact alistGet_eq_none_of_not_mem rest k0 h.1
    · simp [alistRemove, alistGet, h0, ih h.2]

theorem getElem?_some_lt {α : Type} {l : List α} {i : Nat} {a : α}
    (h : l[i]? = some a) : i < l.length := by
  by_contra hc
  push_neg at hc
  rw [List.getElem?_eq_none hc] at h
  cases h

theorem removeVarGo_getElem_gt (steps : Nat) (frames : Frames) (q i : Nat)
    (name : String) (h : q < i) :
    (removeVarGo steps frames q name)[i]? = frames[i]? := by
  induction steps generalizing frames q with
  | zero => rfl
  | succ n ih =>
    simp only [removeVarGo]
    cases hf : frames[q]? with
    | none => rfl
    | some f =>
      by_cases hv : (alistGet f.vars name).isSome
      · simp [hv, List.getElem?_set_ne (Nat.ne_of_lt h)]
      · simp only [hv, Bool.false_eq_true, if_false]
        cases hp : f.parent with
        | none => rfl
        | some p =>
          by_cases hlt : p < q
          · simp only [hlt, if_true]
            exact ih frames p (Nat.lt_trans hlt h)
          · simp [hlt]

/-- `removeVar` leaves the addressed frame without an own binding for the
name and with its variable keys still duplicate-free. -/
theorem removeVar_own (frames : Frames) (envId : Nat) (name : String)
    (f : EnvFrame) (hf : frames[envId]? = some f)
    (hnd : (f.vars.map Prod.fst).Nodup) :
    ∃ f', (removeVar frames envId name)[envId]? = some f' ∧
      alistGet f'.vars name = none ∧ (f'.vars.map Prod.fst).Nodup := by
  have hlen : envId < frames.length := getElem?_some_lt hf
  simp only [removeVar, removeVarGo, hf]
  by_cases hv : (alistGet f.vars name).isSome
  · refine ⟨⟨alistRemove f.vars name, f.consts.filter (· ≠ name),
        f.parent, f.moduleExports⟩, ?_, ?_, ?_⟩
    · rw [if_pos hv]
      exact List.getElem?_set_self hlen
    · exact alistGet_remove_same f.vars name hnd
    · exact (alistRemove_keys_sublist f.vars name).nodup hnd
  · have hnone : alistGet f.vars name = none := by
      cases hg : alistGet f.vars name with
      | none => rfl
      | some v => rw [hg] at hv; simp at hv
    rw [if_neg hv]
    cases hp : f.parent with
    | none => exact ⟨f, hf, hnone, hnd⟩
    | some p =>
      have hm : (match some p with
          | none => frames
          | some p => if p < envId then removeVarGo envId frames p name else frames)
          = if p < envId then removeVarGo envId frames p name else frames := rfl
      rw [hm]
      by_cases hlt : p < envId
      · rw [if_pos hlt]
        exact ⟨f, by rw [removeVarGo_getElem_gt envId frames p envId name hlt]; exact hf,
          hnone, hnd⟩
      · rw [if_neg hlt]
        exact ⟨f, hf, hnone, hnd⟩

theorem declareVar_of_absent (frames : Frames) (id : Nat) (name : String)
    (v : Val) (fr : EnvFrame) (hf : frames[id]? = some fr)
    (hget : alistGet fr.vars name = none) :
    declareVar frames id name v true
      = .ok (frames.set id
          { fr with vars := alistSet fr.vars name v, consts := name :: fr.consts }) := by
  simp [declareVar, hf, hget]

/-- The remove-if-bound-then-redeclare pattern of `eval_collection_statement`,
`eval_database_statement` and `eval_using_statement` always succeeds on a
frame whose variable keys are duplicate-free. -/
theorem declareVar_over (frames : Frames) (id : Nat) (name : String) (v : Val)
    (fr : EnvFrame) (hf : frames[id]? = some fr)
    (hnd : (fr.vars.map Prod.fst).Nodup) :
    ∃ fr',
      declareVar (if hasBinding frames id name then removeVar frames id name
          else frames) id name v true
        = .ok ((if hasBinding frames id name then removeVar frames id name
          else frames).set id fr') ∧
      ((if hasBinding frames id name then removeVar frames id name
          else frames).set id fr')[id]? = some fr' ∧
      (fr'.vars.map Prod.fst).Nodup := by
  by_cases hb : hasBinding frames id name
  · obtain ⟨f1, hf1, hget1, hnd1⟩ := removeVar_own frames id name fr hf hnd
    rw [if_pos hb]
    refine ⟨{ f1 with vars := alistSet f1.vars name v, consts := name :: f1.consts },
      declareVar_of_absent _ id name v f1 hf1 hget1, ?_, ?_⟩
    · exact List.getElem?_set_self (getElem?_some_lt hf1)
    · exact alistSet_keys_nodup f1.vars name v hnd1
  · have hget : alistGet fr.vars name = none := by
      cases hg : alistGet fr.vars name with
      | none => rfl
      | some w =>
        exact absurd (by simp [hasBinding, hasBindingGo, hf, hg]) hb
    rw [if_neg hb]
    refine ⟨{ fr with vars := alistSet fr.vars name v, consts := name :: fr.consts },
      declareVar_of_absent _ id name v fr hf hget, ?_, ?_⟩
    · exact List.getElem?_set_self (getElem?_some_lt hf)
    · exact alistSet_keys_nodup fr.vars name v hnd

/-- A left fold of `removeVar` (the collection-binding scrub of
`eval_database_statement`) keeps the addressed frame present with
duplicate-free variable keys. -/
theorem foldlRemove_inv (bs : List String) :
    ∀ (frames : Frames) (envId : Nat) (f : EnvFrame),
      frames[envId]? = some f → (f.vars.map Prod.fst).Nodup →
      ∃ f', (bs.foldl (fun fs b => removeVar fs envId b) frames)[envId]? = some f' ∧
        (f'.vars.map Prod.fst).Nodup := by
  induction bs with
  | nil =>
    intro frames envId f hf hnd
    exact ⟨f, hf, hnd⟩
  | cons b rest ih =>
    intro frames envId f hf hnd
    obtain ⟨f1, h1, -, h3⟩ := removeVar_own frames envId b f hf hnd
    simp only [List.foldl_cons]
    exact ih (removeVar frames envId b) envId f1 h1 h3

/-- The remove-if-bound-then-redeclare-as-constant step always succeeds on a
frame with duplicate-free variable keys, and afterwards the name resolves to
the new value and is a constant of the frame. -/
theorem declareOver_full (frames : Frames) (id : Nat) (name : String) (v : Val)
    (f : EnvFrame) (hf : frames[id]? = some f)
    (hnd : (f.vars.map Prod.fst).Nodup) :
    ∃ fr',
      declareVar (if hasBinding frames id name then removeVar frames id name
          else frames) id name v true
        = .ok ((if hasBinding frames id name then removeVar frames id name
            else frames).set id fr') ∧
      ((if hasBinding frames id name then removeVar frames id name
          else frames).set id fr')[id]? = some fr' ∧
      lookupVar ((if hasBinding frames id name then removeVar frames id name
          else frames).set id fr') id name = .ok v ∧
      name ∈ fr'.consts ∧ (fr'.vars.map Prod.fst).Nodup := by
  by_cases hb : hasBinding frames id name
  · obtain ⟨f1, hf1, hget1, hnd1⟩ := removeVar_own frames id name f hf hnd
    rw [if_pos hb]
    have hset : ((removeVar frames id name).set id
        ⟨alistSet f1.vars name v, name :: f1.consts, f1.parent,
          f1.moduleExports⟩)[id]?
        = some ⟨alistSet f1.vars name v, name :: f1.consts, f1.parent,
          f1.moduleExports⟩ :=
      List.getElem?_set_self (getElem?_some_lt hf1)
    refine ⟨⟨alistSet f1.vars name v, name :: f1.consts, f1.parent,
        f1.moduleExports⟩,
      declareVar_of_absent _ id name v f1 hf1 hget1, hset, ?_,
      List.mem_cons_self name _, alistSet_keys_nodup _ _ _ hnd1⟩
    simp [lookupVar, resolveEnv, resolveEnvGo, hset, alistGet_set_same]
  · have hget : alistGet f.vars name = none := by
      cases hg : alistGet f.vars name with
      | none => rfl
      | some w =>
        exact absurd (by simp [hasBinding, hasBindingGo, hf, hg]) hb
    rw [if_neg hb]
    have hset : (frames.set id
        ⟨alistSet f.vars name v, name :: f.consts, f.parent,
          f.moduleExports⟩)[id]?
        = some ⟨alistSet f.vars name v, name :: f.consts, f.parent,
          f.moduleExports⟩ :=
      List.getElem?_set_self (getElem?_some_lt hf)
    refine ⟨⟨alistSet f.vars name v, name :: f.consts, f.parent,
        f.moduleExports⟩,
      declareVar_of_absent _ id name v f hf hget, hset, ?_,
      List.mem_cons_self name _, alistSet_keys_nodup _ _ _ hnd⟩
    simp [lookupVar, resolveEnv, resolveEnvGo, hset, alistGet_set_same]

/-- Hand-stated equation of the `databaseStmt` case of `evalStmt` (holds by
`rfl`). -/
theorem evalStmt_database_eq (fuel : Nat) (st : St) (envId : Nat)
    (identifier : String) (initializer : Expr) :
    evalStmt (fuel + 1) st envId (.databaseStmt identifier initializer) =
      match evalExpr fuel st.frames envId initializer with
      | none => none
      | some (f1, .error s) => some ({ st with frames := f1 }, .error s)
      | some (f1, .ok handle) =>
        let st1 := { st with frames := f1 }
        if !isMongoDatabase handle then
          some (st1, .error (.err "database expects a Mongo database handle. Use connect(uri, dbName) to obtain one."))
        else
          let frames2 :=
            match st1.mongo.databaseBinding with
            | some prev =>
              if hasBinding st1.frames envId prev then removeVar st1.frames envId prev
              else st1.frames
            | none => st1.frames
          let (bindings, mongo1) := consumeCollectionBindings st1.mongo
          let frames3 := bindings.foldl (fun fs b => removeVar fs envId b) frames2
          let mongo2 := clearDatabaseBinding mongo1
          let frames4 :=
            if hasBinding frames3 envId identifier then removeVar frames3 envId identifier
            else frames3
          match declareVar frames4 envId identifier handle true with
          | .error s => some ({ st1 with frames := frames4, mongo := mongo2 }, .error s)
          | .ok frames5 =>
            some ({ st1 with
                frames := frames5
                mongo := registerDatabaseBinding mongo2 identifier },
              .ok handle)
      := by rfl

/-- Hand-stated equation of the `collectionStmt`-with-initializer case of
`evalStmt` (holds by `rfl`). -/
theorem evalStmt_collectionSome_eq (fuel : Nat) (st : St) (envId : Nat)
    (bindingName : String) (srcE : Expr) :
    evalStmt (fuel + 1) st envId (.collectionStmt bindingName (some srcE)) =
      match evalExpr fuel st.frames envId srcE with
      | none => none
      | some (f1, .error s) => some ({ st with frames := f1 }, .error s)
      | some (f1, .ok source) =>
        let st1 := { st with frames := f1 }
        if isMongoCollection source then
          finishCollection st1 envId bindingName source
        else
          match source with
          | .vstr name =>
            match st1.mongo.databaseBinding with
            | none =>
              some (st1, .error (.err "collection requires an active database before mapping to a collection name."))
            | some dbBinding =>
              if !hasBinding st1.frames envId dbBinding then
                some (st1, .error (.err "The active database binding is no longer available."))
              else
                match lookupVar st1.frames envId dbBinding with
                | .error s => some (st1, .error s)
                | .ok dbValue =>
                  if !isMongoDatabase dbValue then
                    some (st1, .error (.err "The active database binding is no longer valid."))
                  else
                    match createCollectionFromDatabase st1 dbValue name with
                    | (st2, .error s) => some (st2, .error s)
                    | (st2, .ok value) => finishCollection st2 envId bindingName value
          | _ =>
            if isMongoDatabase source then
              match createCollectionFromDatabase st1 source bindingName with
              | (st2, .error s) => some (st2, .error s)
              | (st2, .ok value) => finishCollection st2 envId bindingName value
            else
              some (st1, .error (.err "collection initializer must evaluate to a Mongo collection, database, or string."))
      := by rfl

/-- C10: `eval_collection_statement` and `eval_database_statement` remove
any existing binding of the target name — even a `const` one — before
re-declaring it as a constant, so (a) `collection x = <collection handle>`
always succeeds and re-registers the name, and (d) `database x = <database
handle>` likewise succeeds, rebinds `x` as a constant and activates the
binding, whereas (b) `declareVar` on a name already declared in the frame
and (c) `assignVar` on a `const` binding are errors. -/
theorem c10_collection_rebinds_where_declare_errors :
    (∀ (fuel : Nat) (st : St) (envId : Nat) (x : String) (srcE : Expr)
        (f1 : Frames) (source : Val) (fr : EnvFrame),
      evalExpr fuel st.frames envId srcE = some (f1, .ok source) →
      isMongoCollection source = true →
      f1[envId]? = some fr →
      (fr.vars.map Prod.fst).Nodup →
      ∃ fr',
        evalStmt (fuel + 1) st envId (.collectionStmt x (some srcE))
          = some ({ st with
                frames := (removeVar f1 envId x).set envId fr',
                mongo := registerCollectionBinding st.mongo x }, .ok source) ∧
        lookupVar ((removeVar f1 envId x).set envId fr') envId x = .ok source ∧
        x ∈ fr'.consts) ∧
    (∀ (frames : Frames) (envId : Nat) (name : String) (v : Val) (c : Bool)
        (fr : EnvFrame),
      frames[envId]? = some fr →
      (alistGet fr.vars name).isSome = true →
      declareVar frames envId name v c
        = .error (.err ("Variable '" ++ name ++
            "' is already declared in this scope. Rename it or assign to the existing binding instead."))) ∧
    (∀ (frames : Frames) (envId e : Nat) (name : String) (v : Val)
        (fr : EnvFrame),
      resolveEnv frames envId name = .ok e →
      frames[e]? = some fr →
      name ∈ fr.consts →
      assignVar frames envId name v
        = .error (.err ("Attempted to reassign constant '" ++ name ++
            "'. Use 'declare' without 'const' if the binding should remain mutable."))) ∧
    (∀ (fuel : Nat) (st : St) (envId : Nat) (x : String) (initE : Expr)
        (f1 : Frames) (handle : Val) (fr : EnvFrame),
      evalExpr fuel st.frames envId initE = some (f1, .ok handle) →
      isMongoDatabase handle = true →
      f1[envId]? = some fr →
      (fr.vars.map Prod.fst).Nodup →
      ∃ st2 fr',
        evalStmt (fuel + 1) st envId (.databaseStmt x initE)
          = some (st2, .ok handle) ∧
        st2.frames[envId]? = some fr' ∧
        lookupVar st2.frames envId x = .ok handle ∧
        x ∈ fr'.consts ∧
        st2.mongo.databaseBinding = some x) := by
  refine ⟨?_, ?_, ?_, ?_⟩
  · intro fuel st envId x srcE f1 source fr hx hc hfr hnd
    obtain ⟨fr1, hfr1, hget1, hnd1⟩ := removeVar_own f1 envId x fr hfr hnd
    have hdecl := declareVar_of_absent (removeVar f1 envId x) envId x source fr1
      hfr1 hget1
    refine ⟨⟨alistSet fr1.vars x source, x :: fr1.consts, fr1.parent,
        fr1.moduleExports⟩, ?_, ?_, ?_⟩
    · rw [evalStmt_collectionSome_eq, hx]
      simp only [hc, if_true, finishCollection, hdecl]
    · have hfr2 : ((removeVar f1 envId x).set envId
          ⟨alistSet fr1.vars x source, x :: fr1.consts, fr1.parent,
            fr1.moduleExports⟩)[envId]?
          = some ⟨alistSet fr1.vars x source, x :: fr1.consts, fr1.parent,
            fr1.moduleExports⟩ :=
        List.getElem?_set_self (getElem?_some_lt hfr1)
      simp [lookupVar, resolveEnv, resolveEnvGo, hfr2, alistGet_set_same]
    · exact List.mem_cons_self x fr1.consts
  · intro frames envId name v c fr hf hv
    simp [declareVar, hf, hv]
  · intro frames envId e name v fr hr hf hm
    simp [assignVar, hr, hf, hm]
  · intro fuel st envId x initE f1 handle fr hx hdb hfr hnd
    have h2 : ∃ f2,
        (match st.mongo.databaseBinding with
          | some prev =>
            if hasBinding f1 envId prev then removeVar f1 envId prev else f1
          | none => f1)[envId]? = some f2 ∧
        ((f2.vars.map Prod.fst)).Nodup := by
      cases st.mongo.databaseBinding with
      | none => exact ⟨fr, hfr, hnd⟩
      | some prev =>
        simp only []
        by_cases hb : hasBinding f1 envId prev
        · rw [if_pos hb]
          obtain ⟨f2, h1, -, h3⟩ := removeVar_own f1 envId prev fr hfr hnd
          exact ⟨f2, h1, h3⟩
        · rw [if_neg hb]
          exact ⟨fr, hfr, hnd⟩
    obtain ⟨f2, hf2, hnd2⟩ := h2
    obtain ⟨f3, hf3, hnd3⟩ :=
      foldlRemove_inv st.mongo.collectionBindings _ envId f2 hf2 hnd2
    obtain ⟨fr', hdecl, hfr', hlook, hconsts, -⟩ :=
      declareOver_full
        (st.mongo.collectionBindings.foldl (fun fs b => removeVar fs envId b)
          (match st.mongo.databaseBinding with
            | some prev =>
              if hasBinding f1 envId prev then removeVar f1 envId prev else f1
            | none => f1))
        envId x handle f3 hf3 hnd3
    refine ⟨{ st with
        frames := (if hasBinding
            (st.mongo.collectionBindings.foldl (fun fs b => removeVar fs envId b)
              (match st.mongo.databaseBinding with
                | some prev =>
                  if hasBinding f1 envId prev then removeVar f1 envId prev else f1
                | none => f1)) envId x then
          removeVar
            (st.mongo.collectionBindings.foldl (fun fs b => removeVar fs envId b)
              (match st.mongo.databaseBinding with
                | some prev =>
                  if hasBinding f1 envId prev then removeVar f1 envId prev else f1
                | none => f1)) envId x
        else
          (st.mongo.collectionBindings.foldl (fun fs b => removeVar fs envId b)
            (match st.mongo.databaseBinding with
              | some prev =>
                if hasBinding f1 envId prev then removeVar f1 envId prev else f1
              | none => f1))).set envId fr'
        mongo := registerDatabaseBinding
          (clearDatabaseBinding (consumeCollectionBindings st.mongo).2) x },
      fr', ?_, hfr', hlook, hconsts, rfl⟩
    rw [evalStmt_database_eq, hx]
    simp only [hdb, Bool.not_true, Bool.false_eq_true, if_false,
      consumeCollectionBindings, hdecl]

theorem c10_collection_rebinds_witness :
    (∃ fr',
      evalStmt 2
          ⟨[⟨[("x", Val.vcoll 0), ("y", Val.vcoll 1)], ["x"], none, none⟩],
            ⟨[], [], none, [], []⟩, ⟨[], [], [], [], "/w"⟩, []⟩ 0
          (.collectionStmt "x" (some (.ident "y")))
        = some ({ (⟨[⟨[("x", Val.vcoll 0), ("y", Val.vcoll 1)], ["x"], none, none⟩],
              ⟨[], [], none, [], []⟩, ⟨[], [], [], [], "/w"⟩, []⟩ : St) with
            frames := (removeVar
              [⟨[("x", Val.vcoll 0), ("y", Val.vcoll 1)], ["x"], none, none⟩]
              0 "x").set 0 fr',
            mongo := registerCollectionBinding ⟨[], [], none, [], []⟩ "x" },
          .ok (.vcoll 1)) ∧
      lookupVar ((removeVar
          [⟨[("x", Val.vcoll 0), ("y", Val.vcoll 1)], ["x"], none, none⟩]
          0 "x").set 0 fr') 0 "x" = .ok (.vcoll 1) ∧
      "x" ∈ fr'.consts) ∧
    (∃ st2 fr',
      evalStmt 2
          ⟨[⟨[("x", Val.vdb 0), ("y", Val.vdb 0)], ["x"], none, none⟩],
            ⟨[], [], none, [], []⟩, ⟨[], [], [], [], "/w"⟩, []⟩ 0
          (.databaseStmt "x" (.ident "y"))
        = some (st2, .ok (.vdb 0)) ∧
      st2.frames[0]? = some fr' ∧
      lookupVar st2.frames 0 "x" = .ok (.vdb 0) ∧
      "x" ∈ fr'.consts ∧
      st2.mongo.databaseBinding = some "x") :=
  ⟨c10_collection_rebinds_where_declare_errors.1 1
    ⟨[⟨[("x", Val.vcoll 0), ("y", Val.vcoll 1)], ["x"], none, none⟩],
      ⟨[], [], none, [], []⟩, ⟨[], [], [], [], "/w"⟩, []⟩ 0 "x" (.ident "y")
    [⟨[("x", Val.vcoll 0), ("y", Val.vcoll 1)], ["x"], none, none⟩] (.vcoll 1)
    ⟨[("x", Val.vcoll 0), ("y", Val.vcoll 1)], ["x"], none, none⟩
    (by rfl) (by rfl) (by rfl) (by decide),
  c10_collection_rebinds_where_declare_errors.2.2.2 1
    ⟨[⟨[("x", Val.vdb 0), ("y", Val.vdb 0)], ["x"], none, none⟩],
      ⟨[], [], none, [], []⟩, ⟨[], [], [], [], "/w"⟩, []⟩ 0 "x" (.ident "y")
    [⟨[("x", Val.vdb 0), ("y", Val.vdb 0)], ["x"], none, none⟩] (.vdb 0)
    ⟨[("x", Val.vdb 0), ("y", Val.vdb 0)], ["x"], none, none⟩
    (by rfl) (by rfl) (by rfl) (by decide)⟩

/-- Hand-stated equation of the `importStmt` case of `evalStmt` (holds by
`rfl`). -/
theorem evalStmt_import_eq (fuel : Nat) (st : St) (envId : Nat)
    (source : String) (nsBinding : Option String)
    (namedImports : Option (List String)) (defaultBinding : Option String) :
    evalStmt (fuel + 1) st envId
        (.importStmt source nsBinding namedImports defaultBinding) =
      (let resolvedPath := resolveImportPath st.modules source
      match alistGet st.modules.resultCache resolvedPath with
      | some cached =>
        match applyImportBindings st.frames envId cached nsBinding namedImports defaultBinding with
        | .error s => some (st, .error s)
        | .ok frames1 => some ({ st with frames := frames1 }, .ok cached)
      | none =>
        match alistGet st.modules.sourcePrograms resolvedPath with
        | none =>
          some (st, .error (.err ("No such file or directory (os error 2): readfile '" ++
            resolvedPath ++ "'")))
        | some program =>
          let moduleEnvId := st.frames.length
          let st1 := { st with frames := st.frames ++ [⟨[], [], some envId, some []⟩] }
          if resolvedPath ∈ st1.modules.inProgress then
            some (st1, .error (.err ("Circular module import detected while loading '" ++
              resolvedPath ++ "'.")))
          else
            let st2 := { st1 with modules := { st1.modules with
                inProgress := resolvedPath :: st1.modules.inProgress
                moduleStack := resolvedPath :: st1.modules.moduleStack } }
            let st3 := { st2 with trace := .moduleEvalStarted resolvedPath :: st2.trace }
            match runProgram (evalStmt fuel) st3 moduleEnvId program .vnull with
            | none => none
            | some (st4, .error s) =>
              let st5 := { st4 with modules := { st4.modules with
                  resultCache := alistRemove st4.modules.resultCache resolvedPath } }
              some (finallyModule st5 resolvedPath, .error s)
            | some (st4, .ok _) =>
              let namespaceVal := buildNamespaceValue st4.frames moduleEnvId
              let st5 := { st4 with modules := { st4.modules with
                  resultCache := alistSet st4.modules.resultCache resolvedPath namespaceVal } }
              match applyImportBindings st5.frames envId namespaceVal nsBinding namedImports defaultBinding with
              | .error s =>
                let st6 := { st5 with modules := { st5.modules with
                    resultCache := alistRemove st5.modules.resultCache resolvedPath } }
                some (finallyModule st6 resolvedPath, .error s)
              | .ok frames1 =>
                some (finallyModule { st5 with frames := frames1 } resolvedPath,
                  .ok namespaceVal)) := by rfl

/-- C6: the module result cache makes `import p` idempotent — (A) on a
cache hit the cached namespace value is returned as-is: the module registry,
the event trace and the Mongo state are untouched (no re-evaluation), and a
non-error result is exactly the cached object; (B) on a cache miss, a
successful import stores the returned namespace value in the result cache
under the resolved path, so a later import site hits case (A) and yields the
same object. -/
theorem c6_import_namespace_cached
    (fuel : Nat) (st : St) (envId : Nat) (source : String)
    (nsBinding : Option String) (namedImports : Option (List String))
    (defaultBinding : Option String) (st' : St) :
    (∀ cached r,
      alistGet st.modules.resultCache (resolveImportPath st.modules source)
        = some cached →
      evalStmt (fuel + 1) st envId
          (.importStmt source nsBinding namedImports defaultBinding)
        = some (st', r) →
      st'.modules = st.modules ∧ st'.trace = st.trace ∧ st'.mongo = st.mongo ∧
        (r = .ok cached ∨ ∃ e, r = .error e)) ∧
    (∀ v,
      alistGet st.modules.resultCache (resolveImportPath st.modules source)
        = none →
      evalStmt (fuel + 1) st envId
          (.importStmt source nsBinding namedImports defaultBinding)
        = some (st', .ok v) →
      alistGet st'.modules.resultCache (resolveImportPath st.modules source)
        = some v) := by
  constructor
  · intro cached r hhit h
    rw [evalStmt_import_eq] at h
    simp only [hhit] at h
    split at h
    · rename_i s heq
      simp only [Option.some.injEq, Prod.mk.injEq] at h
      obtain ⟨hst, hr⟩ := h
      subst hst
      exact ⟨rfl, rfl, rfl, Or.inr ⟨s, hr.symm⟩⟩
    · rename_i frames1 heq
      simp only [Option.some.injEq, Prod.mk.injEq] at h
      obtain ⟨hst, hr⟩ := h
      subst hst
      exact ⟨rfl, rfl, rfl, Or.inl hr.symm⟩
  · intro v hmiss h
    rw [evalStmt_import_eq] at h
    simp only [hmiss] at h
    split at h
    · simp at h
    · rename_i program heq
      split at h
      · simp at h
      · split at h
        · exact absurd h (by simp)
        · simp at h
        · rename_i st4 u heq2
          split at h
          · simp at h
          · rename_i frames1 heq3
            simp only [Option.some.injEq, Prod.mk.injEq, Except.ok.injEq] at h
            obtain ⟨hst, hv⟩ := h
            subst hst
            subst hv
            simp [finallyModule, alistGet_set_same]

theorem c6_import_cached_witness :
    (⟨[⟨[], [], none, none⟩], ⟨[], [], none, [], []⟩,
        ⟨[], [("/w/m.ds", Val.vobj [] none)], [], [], "/w"⟩, []⟩ : St).modules
      = (⟨[⟨[], [], none, none⟩], ⟨[], [], none, [], []⟩,
        ⟨[], [("/w/m.ds", Val.vobj [] none)], [], [], "/w"⟩, []⟩ : St).modules ∧
    (⟨[⟨[], [], none, none⟩], ⟨[], [], none, [], []⟩,
        ⟨[], [("/w/m.ds", Val.vobj [] none)], [], [], "/w"⟩, []⟩ : St).trace
      = (⟨[⟨[], [], none, none⟩], ⟨[], [], none, [], []⟩,
        ⟨[], [("/w/m.ds", Val.vobj [] none)], [], [], "/w"⟩, []⟩ : St).trace ∧
    (⟨[⟨[], [], none, none⟩], ⟨[], [], none, [], []⟩,
        ⟨[], [("/w/m.ds", Val.vobj [] none)], [], [], "/w"⟩, []⟩ : St).mongo
      = (⟨[⟨[], [], none, none⟩], ⟨[], [], none, [], []⟩,
        ⟨[], [("/w/m.ds", Val.vobj [] none)], [], [], "/w"⟩, []⟩ : St).mongo ∧
    ((Except.ok (Val.vobj [] none) : Except Sig Val) = .ok (.vobj [] none) ∨
      ∃ e, (Except.ok (Val.vobj [] none) : Except Sig Val) = .error e) :=
  (c6_import_namespace_cached 0
    ⟨[⟨[], [], none, none⟩], ⟨[], [], none, [], []⟩,
      ⟨[], [("/w/m.ds", Val.vobj [] none)], [], [], "/w"⟩, []⟩ 0 "m.ds"
    none none none
    ⟨[⟨[], [], none, none⟩], ⟨[], [], none, [], []⟩,
      ⟨[], [("/w/m.ds", Val.vobj [] none)], [], [], "/w"⟩, []⟩).1
    (.vobj [] none) (.ok (.vobj [] none)) (by rfl) (by rfl)

/-- The `database` clause evaluation touches only the frame store. -/
theorem evalUsingDbName_effects (fuel : Nat) (st : St) (envId : Nat)
    (e : Option Expr) (st2 : St) (r : Except Sig (Option String))
    (h : evalUsingDbName fuel st envId e = some (st2, r)) :
    st2.mongo = st.mongo ∧ st2.trace = st.trace ∧ st2.modules = st.modules := by
  cases e with
  | none =>
    simp only [evalUsingDbName, Option.some.injEq, Prod.mk.injEq] at h
    rw [← h.1]
    exact ⟨rfl, rfl, rfl⟩
  | some e' =>
    simp only [evalUsingDbName] at h
    split at h
    · cases h
    · simp only [Option.some.injEq, Prod.mk.injEq] at h
      rw [← h.1]
      exact ⟨rfl, rfl, rfl⟩
    · split at h <;>
        (simp only [Option.some.injEq, Prod.mk.injEq] at h
         rw [← h.1]
         exact ⟨rfl, rfl, rfl⟩)

/-- The `with` options clause evaluation touches only the frame store. -/
theorem evalUsingOptions_effects (fuel : Nat) (st : St) (envId : Nat)
    (e : Option Expr) (st2 : St) (r : Except Sig (Option (List (String × Val))))
    (h : evalUsingOptions fuel st envId e = some (st2, r)) :
    st2.mongo = st.mongo ∧ st2.trace = st.trace ∧ st2.modules = st.modules := by
  cases e with
  | none =>
    simp only [evalUsingOptions, Option.some.injEq, Prod.mk.injEq] at h
    rw [← h.1]
    exact ⟨rfl, rfl, rfl⟩
  | some e' =>
    simp only [evalUsingOptions] at h
    split at h
    · cases h
    · simp only [Option.some.injEq, Prod.mk.injEq] at h
      rw [← h.1]
      exact ⟨rfl, rfl, rfl⟩
    · split at h <;>
        first
        | (split at h <;>
            (simp only [Option.some.injEq, Prod.mk.injEq] at h
             rw [← h.1]
             exact ⟨rfl, rfl, rfl⟩))
        | (simp only [Option.some.injEq, Prod.mk.injEq] at h
           rw [← h.1]
           exact ⟨rfl, rfl, rfl⟩)

theorem connectMongo_ok (st : St) (uri : String) (dbName : Option String)
    (st6 : St) (v : Val) (h : connectMongo st uri dbName = (st6, .ok v)) :
    v = .vdb st.mongo.dbMetas.length ∧
    st6.frames = st.frames ∧
    st6.mongo.dbMetas = st.mongo.dbMetas ++
      [⟨trimStr uri, resolveDatabaseName (trimStr uri) dbName, false, []⟩] := by
  simp only [connectMongo] at h
  split at h
  · simp at h
  · simp only [Prod.mk.injEq, Except.ok.injEq] at h
    obtain ⟨hst, hv⟩ := h
    rw [← hst, ← hv]
    exact ⟨rfl, rfl, rfl⟩

theorem connectMongo_err (st : St) (uri : String) (dbName : Option String)
    (st6 : St) (e : Sig) (h : connectMongo st uri dbName = (st6, .error e)) :
    st6 = st := by
  simp only [connectMongo] at h
  split at h
  · exact (Prod.mk.injEq .. ▸ h).1.symm
  · simp at h

theorem disconnectMongo_trace (st : St) (v : Val) :
    (disconnectMongo st v).1.trace = st.trace := by
  cases v <;> simp only [disconnectMongo]
  case vdb id =>
    cases hm : st.mongo.dbMetas[id]? with
    | none => rfl
    | some meta =>
      simp only []
      by_cases hc : meta.closed
      · simp [hc]
      · simp only [hc, Bool.false_eq_true, if_false]
        by_cases hf : id ∈ st.mongo.closeFailures
        · simp [hf]
        · simp [hf]

/-- `usingCleanup` restores exactly the snapshot's registry fields and
records the disconnect attempt on top of the trace. -/
theorem usingCleanup_spec (st : St) (dbId : Nat) (snap : MongoSnapshot) :
    (usingCleanup st dbId snap).mongo.databaseBinding = snap.database ∧
    (usingCleanup st dbId snap).mongo.collectionBindings = snap.collections ∧
    (usingCleanup st dbId snap).trace
      = .disconnectAttempted dbId :: st.trace := by
  have htr := disconnectMongo_trace
    { st with trace := .disconnectAttempted dbId :: st.trace } (.vdb dbId)
  simp only [usingCleanup]
  cases hd : disconnectMongo
      { st with trace := .disconnectAttempted dbId :: st.trace } (.vdb dbId) with
  | mk st2 r =>
    rw [hd] at htr
    cases r with
    | ok w => exact ⟨rfl, rfl, htr⟩
    | error e => exact ⟨rfl, rfl, htr⟩

theorem setCollectionDefaults_frames (st : St) (c : Val)
    (d : List (String × Val)) : (setCollectionDefaults st c d).frames = st.frames := by
  cases c <;> simp only [setCollectionDefaults]
  case vcoll id =>
    cases st.mongo.collMetas[id]? <;> rfl

theorem setCollectionDefaults_dbMetas (st : St) (c : Val)
    (d : List (String × Val)) :
    (setCollectionDefaults st c d).mongo.dbMetas = st.mongo.dbMetas := by
  cases c <;> simp only [setCollectionDefaults]
  case vcoll id =>
    cases st.mongo.collMetas[id]? <;> rfl

/-- On an open database handle `createCollectionFromDatabase` cannot fail,
leaves the frame store alone, and keeps the database open. -/
theorem createCollectionFromDatabase_ok (st : St) (dbId : Nat) (name : String)
    (meta : DbMeta) (hm : st.mongo.dbMetas[dbId]? = some meta)
    (hcl : meta.closed = false) :
    ∃ st1 collId,
      createCollectionFromDatabase st (.vdb dbId) name = (st1, .ok (.vcoll collId)) ∧
      st1.frames = st.frames ∧
      ∃ meta', st1.mongo.dbMetas[dbId]? = some meta' ∧ meta'.closed = false := by
  cases hc : alistGet meta.collections name with
  | some collId =>
    have hstep : createCollectionFromDatabase st (.vdb dbId) name
        = (st, .ok (.vcoll collId)) := by
      simp [createCollectionFromDatabase, hm, hc]
    exact ⟨st, collId, hstep, rfl, meta, hm, hcl⟩
  | none =>
    have hstep : createCollectionFromDatabase st (.vdb dbId) name
        = ({ st with mongo := { st.mongo with
            collMetas := st.mongo.collMetas ++ [⟨name, dbId, []⟩],
            dbMetas := st.mongo.dbMetas.set dbId
              { meta with collections :=
                (alistSet meta.collections name st.mongo.collMetas.length) } } },
          .ok (.vcoll st.mongo.collMetas.length)) := by
      simp [createCollectionFromDatabase, hm, hc, hcl]
    refine ⟨_, st.mongo.collMetas.length, hstep, rfl,
      ⟨{ meta with collections :=
          (alistSet meta.collections name st.mongo.collMetas.length) }, ?_, hcl⟩⟩
    exact List.getElem?_set_self (getElem?_some_lt hm)

/-- The `opts.collections` pre-creation loop cannot fail when the scoped
frame's variable keys are duplicate-free and the database is open. -/
theorem setupUsingCollections_ok (cfgs : List (String × Val)) :
    ∀ (st : St) (id dbId : Nat) (fr : EnvFrame) (meta : DbMeta),
      st.frames[id]? = some fr → (fr.vars.map Prod.fst).Nodup →
      st.mongo.dbMetas[dbId]? = some meta → meta.closed = false →
      ∃ st8, setupUsingCollections st id (.vdb dbId) cfgs = (st8, .ok ()) := by
  induction cfgs with
  | nil =>
    intro st id dbId fr meta hf hnd hm hcl
    exact ⟨st, rfl⟩
  | cons c rest ih =>
    intro st id dbId fr meta hf hnd hm hcl
    obtain ⟨name, defaults⟩ := c
    cases defaults
    case vobj dprops sn =>
      obtain ⟨st1, collId, hcc, hcf, meta1, hm1, hcl1⟩ :=
        createCollectionFromDatabase_ok st dbId name meta hm hcl
      have hf1 : st1.frames[id]? = some fr := by rw [hcf]; exact hf
      obtain ⟨fr', hdecl, hfr', hnd'⟩ :=
        declareVar_over st1.frames id name (.vcoll collId) fr hf1 hnd
      simp only [setupUsingCollections, hcc]
      rw [hdecl]
      apply ih _ id dbId fr' meta1
      · rw [setCollectionDefaults_frames]
        exact hfr'
      · exact hnd'
      · rw [setCollectionDefaults_dbMetas]
        exact hm1
      · exact hcl1
    all_goals simp only [setupUsingCollections]
    all_goals exact ih st id dbId fr meta hf hnd hm hcl

/-- Hand-stated equation of the `usingStmt` case of `evalStmt` (holds by
`rfl`; the definition's `let` bindings are inlined). -/
theorem evalStmt_using_eq (fuel : Nat) (st : St) (envId : Nat)
    (uriE : Expr) (dbE : Option Expr) (aliasN : Option String)
    (optsE : Option Expr) (body : List Stmt) :
    evalStmt (fuel + 1) st envId (.usingStmt uriE dbE aliasN optsE body) =
      match evalExpr fuel st.frames envId uriE with
      | none => none
      | some (f1, .error s) => some ({ st with frames := f1 }, .error s)
      | some (f1, .ok uriV) =>
        match uriV with
        | .vstr uriRaw =>
          if (trimStr uriRaw).length = 0 then
            some ({ st with frames := f1 },
              .error (.err "Mongo connection URI cannot be empty."))
          else
            match evalUsingDbName fuel { st with frames := f1 } envId dbE with
            | none => none
            | some (st2, .error s) => some (st2, .error s)
            | some (st2, .ok dbName) =>
              match evalUsingOptions fuel st2 envId optsE with
              | none => none
              | some (st3, .error s) => some (st3, .error s)
              | some (st3, .ok collectionDefaultsConfig) =>
                match connectMongo
                    { st3 with
                      mongo := (consumeCollectionBindings
                        (clearDatabaseBinding st3.mongo)).2,
                      frames := st3.frames ++ [⟨[], [], some envId, none⟩] }
                    (trimStr uriRaw) dbName with
                | (st6, .error s) => some (st6, .error s)
                | (st6, .ok databaseValue) =>
                  match declareVar
                      (if hasBinding st6.frames st3.frames.length (aliasN.getD "db") then
                        removeVar st6.frames st3.frames.length (aliasN.getD "db")
                      else st6.frames)
                      st3.frames.length (aliasN.getD "db") databaseValue true with
                  | .error s =>
                    some ({ st6 with frames :=
                        (if hasBinding st6.frames st3.frames.length (aliasN.getD "db") then
                          removeVar st6.frames st3.frames.length (aliasN.getD "db")
                        else st6.frames) }, .error s)
                  | .ok frames2 =>
                    match setupUsingCollections
                        { st6 with
                          frames := frames2
                          mongo := registerDatabaseBinding st6.mongo (aliasN.getD "db") }
                        st3.frames.length databaseValue
                        (collectionDefaultsConfig.getD []) with
                    | (st8, .error s) => some (st8, .error s)
                    | (st8, .ok _) =>
                      match runSeq (evalStmt fuel) st8 st3.frames.length body with
                      | none => none
                      | some (st9, r) =>
                        some (usingCleanup st9
                          (match databaseValue with | .vdb i => i | _ => 0)
                          (captureMongoState st3.mongo), r)
        | _ =>
          some ({ st with frames := f1 },
            .error (.err "using mongo expects the URI expression to evaluate to a string."))
      := by rfl

/-- C4: resource safety of `using mongo` — whenever the statement completes
(with any result `r`, i.e. whether the body finished normally or threw), then
either the body ran and on scope exit the cleanup executed before control
returned: a disconnect of the scope's connection was attempted and the
process-wide registry (active-database binding and collection-binding set)
was restored to the snapshot captured on entry; or evaluation failed before
the connection was established (the result is an error and the effect trace
is untouched). -/
theorem c4_using_mongo_resource_safety
    (fuel : Nat) (st : St) (envId : Nat) (uriE : Expr) (dbE : Option Expr)
    (aliasN : Option String) (optsE : Option Expr) (body : List Stmt)
    (st' : St) (r : Except Sig Val)
    (h : evalStmt (fuel + 1) st envId (.usingStmt uriE dbE aliasN optsE body)
      = some (st', r)) :
    (st'.mongo.databaseBinding = st.mongo.databaseBinding ∧
     st'.mongo.collectionBindings = st.mongo.collectionBindings ∧
     ∃ dbId rest, st'.trace = Event.disconnectAttempted dbId :: rest) ∨
    (st'.trace = st.trace ∧ ∃ e, r = .error e) := by
  rw [evalStmt_using_eq] at h
  cases hx : evalExpr fuel st.frames envId uriE with
  | none => rw [hx] at h; exact absurd h (by simp)
  | some p =>
    obtain ⟨f1, rx⟩ := p
    rw [hx] at h
    cases rx with
    | error s =>
      simp only [Option.some.injEq, Prod.mk.injEq] at h
      obtain ⟨hst, hr⟩ := h
      subst hst
      exact Or.inr ⟨rfl, ⟨s, hr.symm⟩⟩
    | ok uriV =>
      cases uriV
      case vstr uriRaw =>
        simp only [] at h
        by_cases hlen : (trimStr uriRaw).length = 0
        · rw [if_pos hlen] at h
          simp only [Option.some.injEq, Prod.mk.injEq] at h
          obtain ⟨hst, hr⟩ := h
          subst hst
          exact Or.inr ⟨rfl, ⟨_, hr.symm⟩⟩
        · rw [if_neg hlen] at h
          cases hdb : evalUsingDbName fuel { st with frames := f1 } envId dbE with
          | none => rw [hdb] at h; exact absurd h (by simp)
          | some p2 =>
            obtain ⟨st2, r2⟩ := p2
            rw [hdb] at h
            obtain ⟨hm2, ht2, -⟩ :=
              evalUsingDbName_effects fuel { st with frames := f1 } envId dbE st2 r2 hdb
            cases r2 with
            | error s =>
              simp only [Option.some.injEq, Prod.mk.injEq] at h
              obtain ⟨hst, hr⟩ := h
              subst hst
              exact Or.inr ⟨ht2, ⟨s, hr.symm⟩⟩
            | ok dbName =>
              simp only [] at h
              cases hop : evalUsingOptions fuel st2 envId optsE with
              | none => rw [hop] at h; exact absurd h (by simp)
              | some p3 =>
                obtain ⟨st3, r3⟩ := p3
                rw [hop] at h
                obtain ⟨hm3, ht3, -⟩ :=
                  evalUsingOptions_effects fuel st2 envId optsE st3 r3 hop
                cases r3 with
                | error s =>
                  simp only [Option.some.injEq, Prod.mk.injEq] at h
                  obtain ⟨hst, hr⟩ := h
                  subst hst
                  exact Or.inr ⟨ht3.trans ht2, ⟨s, hr.symm⟩⟩
                | ok cfg =>
                  simp only [] at h
                  cases hc : connectMongo
                      { st3 with
                        mongo := (consumeCollectionBindings
                          (clearDatabaseBinding st3.mongo)).2,
                        frames := st3.frames ++ [⟨[], [], some envId, none⟩] }
                      (trimStr uriRaw) dbName with
                  | mk st6 rc =>
                    rw [hc] at h
                    cases rc with
                    | error s =>
                      have hc6 := connectMongo_err _ _ _ _ _ hc
                      simp only [Option.some.injEq, Prod.mk.injEq] at h
                      obtain ⟨hst, hr⟩ := h
                      subst hst
                      rw [hc6]
                      exact Or.inr ⟨ht3.trans ht2, ⟨s, hr.symm⟩⟩
                    | ok dbV =>
                      simp only [] at h
                      obtain ⟨hdbv, hfr6, hdbm6⟩ := connectMongo_ok _ _ _ _ _ hc
                      have hdbv2 : dbV = .vdb st3.mongo.dbMetas.length := hdbv
                      have hfresh : st6.frames[st3.frames.length]?
                          = some ⟨[], [], some envId, none⟩ := by
                        rw [hfr6]
                        exact concat_getElem_len st3.frames _
                      obtain ⟨fr', hdecl, hfr', hnd'⟩ := declareVar_over st6.frames
                        st3.frames.length (aliasN.getD "db") dbV
                        ⟨[], [], some envId, none⟩ hfresh (by simp)
                      cases hd : declareVar
                          (if hasBinding st6.frames st3.frames.length (aliasN.getD "db") then
                            removeVar st6.frames st3.frames.length (aliasN.getD "db")
                          else st6.frames)
                          st3.frames.length (aliasN.getD "db") dbV true with
                      | error s => exact absurd (hdecl.symm.trans hd) (by simp)
                      | ok frames2 =>
                        rw [hd] at h
                        simp only [] at h
                        have hfr2eq : frames2
                            = (if hasBinding st6.frames st3.frames.length (aliasN.getD "db") then
                                removeVar st6.frames st3.frames.length (aliasN.getD "db")
                              else st6.frames).set st3.frames.length fr' :=
                          (Except.ok.inj (hdecl.symm.trans hd)).symm
                        have hmA : st6.mongo.dbMetas[st3.mongo.dbMetas.length]?
                            = some ⟨trimStr (trimStr uriRaw),
                                resolveDatabaseName (trimStr (trimStr uriRaw)) dbName,
                                false, []⟩ := by
                          rw [hdbm6]
                          exact concat_getElem_len _ _
                        obtain ⟨st8', hsetup⟩ := setupUsingCollections_ok (cfg.getD [])
                          { st6 with
                            frames := frames2
                            mongo := registerDatabaseBinding st6.mongo (aliasN.getD "db") }
                          st3.frames.length st3.mongo.dbMetas.length fr' _
                          (by show frames2[st3.frames.length]? = some fr'
                              rw [hfr2eq]; exact hfr')
                          hnd' hmA rfl
                        rw [← hdbv2] at hsetup
                        rw [hsetup] at h
                        simp only [] at h
                        cases hrs : runSeq (evalStmt fuel) st8' st3.frames.length body with
                        | none => rw [hrs] at h; exact absurd h (by simp)
                        | some p9 =>
                          obtain ⟨st9, r9⟩ := p9
                          rw [hrs] at h
                          simp only [Option.some.injEq, Prod.mk.injEq] at h
                          obtain ⟨hst, hr⟩ := h
                          subst hst
                          left
                          obtain ⟨hA, hB, hC⟩ := usingCleanup_spec st9 _
                            (captureMongoState st3.mongo)
                          refine ⟨?_, ?_, ⟨_, _, hC⟩⟩
                          · rw [hA]
                            exact congrArg MongoSt.databaseBinding (hm3.trans hm2)
                          · rw [hB]
                            exact congrArg MongoSt.collectionBindings (hm3.trans hm2)
      all_goals
        simp only [Option.some.injEq, Prod.mk.injEq] at h
      all_goals
        obtain ⟨hst, hr⟩ := h
        subst hst
        exact Or.inr ⟨rfl, ⟨_, hr.symm⟩⟩
theorem c4_using_mongo_witness :
    ((⟨[⟨[], [], none, none⟩, ⟨[("db", Val.vdb 0)], ["db"], some 0, none⟩],
        ⟨[⟨"mongodb://h/", "mydb", true, []⟩], [], none, [], []⟩,
        ⟨[], [], [], [], "/w"⟩,
        [.disconnectAttempted 0, .connected 0]⟩ : St).mongo.databaseBinding
        = (⟨[⟨[], [], none, none⟩], ⟨[], [], none, [], []⟩,
            ⟨[], [], [], [], "/w"⟩, []⟩ : St).mongo.databaseBinding ∧
      (⟨[⟨[], [], none, none⟩, ⟨[("db", Val.vdb 0)], ["db"], some 0, none⟩],
        ⟨[⟨"mongodb://h/", "mydb", true, []⟩], [], none, [], []⟩,
        ⟨[], [], [], [], "/w"⟩,
        [.disconnectAttempted 0, .connected 0]⟩ : St).mongo.collectionBindings
        = (⟨[⟨[], [], none, none⟩], ⟨[], [], none, [], []⟩,
            ⟨[], [], [], [], "/w"⟩, []⟩ : St).mongo.collectionBindings ∧
      (∃ dbId rest,
        (⟨[⟨[], [], none, none⟩, ⟨[("db", Val.vdb 0)], ["db"], some 0, none⟩],
          ⟨[⟨"mongodb://h/", "mydb", true, []⟩], [], none, [], []⟩,
          ⟨[], [], [], [], "/w"⟩,
          [.disconnectAttempted 0, .connected 0]⟩ : St).trace
          = Event.disconnectAttempted dbId :: rest)) ∨
    ((⟨[⟨[], [], none, none⟩, ⟨[("db", Val.vdb 0)], ["db"], some 0, none⟩],
        ⟨[⟨"mongodb://h/", "mydb", true, []⟩], [], none, [], []⟩,
        ⟨[], [], [], [], "/w"⟩,
        [.disconnectAttempted 0, .connected 0]⟩ : St).trace
        = (⟨[⟨[], [], none, none⟩], ⟨[], [], none, [], []⟩,
            ⟨[], [], [], [], "/w"⟩, []⟩ : St).trace ∧
      ∃ e, (Except.ok Val.vnull : Except Sig Val) = .error e) :=
  c4_using_mongo_resource_safety 1
    ⟨[⟨[], [], none, none⟩], ⟨[], [], none, [], []⟩, ⟨[], [], [], [], "/w"⟩, []⟩
    0 (.strLit "mongodb://h/") (some (.strLit "mydb")) none none []
    ⟨[⟨[], [], none, none⟩, ⟨[("db", Val.vdb 0)], ["db"], some 0, none⟩],
      ⟨[⟨"mongodb://h/", "mydb", true, []⟩], [], none, [], []⟩,
      ⟨[], [], [], [], "/w"⟩,
      [.disconnectAttempted 0, .connected 0]⟩ (.ok .vnull) (by rfl)

end DataScript
